import Mathlib

/-!
Shallow embedding of the Emirates-ID chatbot backend (repository
`chatbotApi`, files `src/api/views.py` and `src/api/ocr_space.py`).

Conventions of the embedding:
* Python strings are Lean `String`s; character-level work happens on
  `List Char`.
* Python regular expressions are embedded as explicit scanning
  functions that reproduce `re.search` / `re.findall` semantics
  (leftmost match, greedy/lazy quantifiers with backtracking) for the
  concrete patterns appearing in the source.
* `\w`, `\d` and `\s` are modelled over their ASCII ranges.
* A Python function that can raise an uncaught exception is embedded
  with result type `Option _`, where `none` marks the exception; code
  paths whose exceptions are swallowed by the source (`try/except`)
  are embedded total, returning the fallback the handler returns.
* Python `dict`s with string keys/values are association lists
  (`FieldMap`) with Python's insertion-order update semantics.
-/

/-! ## Basic Python string primitives -/

/-- Model of Python's whitespace class (`\s`, `str.strip`) over ASCII. -/
def isPySpace (c : Char) : Bool :=
  c == ' ' || c == '\t' || c == '\n' || c == '\r' || c == '\x0b' || c == '\x0c'

/-- Model of the regex word class `\w` (ASCII range). -/
def isWordCh (c : Char) : Bool :=
  c.isAlphanum || c == '_'

/-- ASCII lower-casing of one character (Python `str.lower` on the
character sets used by the source; Arabic letters are case-less). -/
def pyLowerChar (c : Char) : Char :=
  if 'A' ≤ c && c ≤ 'Z' then Char.ofNat (c.toNat + 32) else c

/-- ASCII upper-casing of one character. -/
def pyUpperChar (c : Char) : Char :=
  if 'a' ≤ c && c ≤ 'z' then Char.ofNat (c.toNat - 32) else c

/-- Python `str.lower`. -/
def pyLower (s : String) : String :=
  String.mk (s.data.map pyLowerChar)

/-- Python `str.upper`. -/
def pyUpper (s : String) : String :=
  String.mk (s.data.map pyUpperChar)

/-- Does the first list occur as a prefix of the second? -/
def startsWithL : List Char → List Char → Bool
  | [], _ => true
  | _ :: _, [] => false
  | n :: ns, h :: hs => n == h && startsWithL ns hs

/-- Does the first list occur as a contiguous sublist of the second? -/
def isSubL : List Char → List Char → Bool
  | needle, [] => needle.isEmpty
  | needle, c :: rest => startsWithL needle (c :: rest) || isSubL needle rest

/-- Python `needle in hay` substring test. -/
def containsStr (hay needle : String) : Bool :=
  isSubL needle.data hay.data

/-- Python `str.strip()` on a character list. -/
def pyStripL (cs : List Char) : List Char :=
  ((cs.dropWhile isPySpace).reverse.dropWhile isPySpace).reverse

/-- Python `str.strip()`. -/
def pyStripS (s : String) : String :=
  String.mk (pyStripL s.data)

/-- Python `str.rstrip(cset)`: drop the trailing run of characters
satisfying `p`. -/
def pyRstripBy (p : Char → Bool) (cs : List Char) : List Char :=
  (cs.reverse.dropWhile p).reverse

/-- Python `str.split()` (split on whitespace runs, dropping empties). -/
def pySplitWs (s : String) : List String :=
  (s.data.splitOnP isPySpace).map String.mk |>.filter (· ≠ "")

/-- Python `str.splitlines()` restricted to the line breaks the source
can contain (`\n`, `\r`, `\r\n`); no trailing empty line is produced. -/
def pySplitlinesGo (acc : List Char) : List Char → List String
  | [] => if acc.isEmpty then [] else [String.mk acc.reverse]
  | '\r' :: '\n' :: rest => String.mk acc.reverse :: pySplitlinesGo [] rest
  | '\r' :: rest => String.mk acc.reverse :: pySplitlinesGo [] rest
  | '\n' :: rest => String.mk acc.reverse :: pySplitlinesGo [] rest
  | c :: rest => pySplitlinesGo (c :: acc) rest

/-- Python `str.splitlines()`. -/
def pySplitlines (s : String) : List String :=
  pySplitlinesGo [] s.data

/-- Python `" ".join(l)`. -/
def joinSp : List String → String
  | [] => ""
  | [s] => s
  | s :: rest => s ++ " " ++ joinSp rest

/-- Python `any(ch.isdigit() for ch in s)`. -/
def hasDigit (s : String) : Bool :=
  s.data.any Char.isDigit

/-- Python `str.isdigit()` (nonempty, all digits). -/
def pyIsdigit (s : String) : Bool :=
  !s.data.isEmpty && s.data.all Char.isDigit

/-- Numeric value of a digit string (Python `int(s)` for digit-only `s`). -/
def natOfDigits (cs : List Char) : Nat :=
  cs.foldl (fun acc c => 10 * acc + (c.toNat - '0'.toNat)) 0

/-- Python `str.title()` over ASCII letters: upper-case a letter that
follows a non-letter, lower-case other letters. -/
def pyTitleGo (prevAlpha : Bool) : List Char → List Char
  | [] => []
  | c :: rest =>
    if c.isAlpha then
      (if prevAlpha then pyLowerChar c else pyUpperChar c) :: pyTitleGo true rest
    else
      c :: pyTitleGo false rest

/-- Python `str.title()`. -/
def pyTitle (s : String) : String :=
  String.mk (pyTitleGo false s.data)

/-- Length of the initial run of characters satisfying `p`. -/
def countWhile (p : Char → Bool) (cs : List Char) : Nat :=
  (cs.takeWhile p).length

/-- First maximal run of ASCII digits in a string, as a number: models
`re.findall(r"\d+", s)[0]` (with `none` when there is no digit).
`re.findall` returns the digit runs left to right; only the first is
used by the source. -/
def firstDigitRun : List Char → Option Nat
  | [] => none
  | c :: rest =>
    if c.isDigit then
      some (natOfDigits ((c :: rest).takeWhile Char.isDigit))
    else
      firstDigitRun rest

/-! ## Field maps (Python string-keyed dicts) -/

/-- A Python `dict` from field name to string value, with insertion
order preserved. -/
abbrev FieldMap := List (String × String)

/-- Python `k in d`. -/
def hasKeyF (k : String) (m : FieldMap) : Bool :=
  m.any (fun kv => kv.1 == k)

/-- Python `d.get(k)` / `d[k]` lookup (first — and only — entry). -/
def lookupF (k : String) (m : FieldMap) : Option String :=
  (m.find? (fun kv => kv.1 == k)).map (fun kv => kv.2)

/-- Python `d[k] = v`: replace in place if the key exists, else append. -/
def dinsert (m : FieldMap) (k v : String) : FieldMap :=
  if hasKeyF k m then
    m.map (fun kv => if kv.1 == k then (k, v) else kv)
  else
    m ++ [(k, v)]

/-- Python `{**a, **b}`: keys of `a` in order (values overridden by
`b` where present), then the keys of `b` not in `a`. -/
def pyDictMerge (a b : FieldMap) : FieldMap :=
  (a.map (fun kv => (kv.1, (lookupF kv.1 b).getD kv.2))) ++
    b.filter (fun kv => !hasKeyF kv.1 a)

/-! ## `ocr_space.detect_document_side` -/

/-- The back-side indicator list of `detect_document_side`
(`src/api/ocr_space.py`), duplicates included, in source order. -/
def back_indicators : List String :=
  ["الكفالة", "employer", "صاحب العمل", "occupation", "المهنة",
   "occupation", "employer", "issuing place", "مكان الإصدار",
   "family sponsor", "كفالة عائلية"]

/-- The front-side indicator list of `detect_document_side`. -/
def front_indicators : List String :=
  ["emirates id", "identity card", "بطاقة الهوية", "name", "الاسم",
   "nationality", "الجنسية", "date of birth", "تاريخ الميلاد"]

/-- `sum(1 for indicator in back_indicators if indicator in text_lower)`. -/
def backScore (text : String) : Nat :=
  back_indicators.countP (fun ind => containsStr (pyLower text) ind)

/-- `sum(1 for indicator in front_indicators if indicator in text_lower)`. -/
def frontScore (text : String) : Nat :=
  front_indicators.countP (fun ind => containsStr (pyLower text) ind)

/-- `detect_document_side` from `src/api/ocr_space.py`. -/
def detect_document_side (text : String) : String :=
  if backScore text > frontScore text then "back"
  else if frontScore text > backScore text then "front"
  else "unknown"

/-! ## Issuing-place and salary normalization, recommendation table
(the shared helper `compute_products_based_on_data` in
`src/api/views.py`, lines 1678-1766) -/

/-- Issuing-place normalization (`views.py` lines 1679-1696).
`issuing_place` is `record.issuing_place` (`None` ↦ `none`); a `none`
record gives the same result as a `none` field. -/
def normalizePlace (issuing_place : Option String) : Option String :=
  let issuing_raw := issuing_place.getD ""
  let issuing_norm := pyLower (pyStripS issuing_raw)
  if issuing_norm ≠ "" then
    if (containsStr issuing_norm "abu" && !containsStr issuing_norm "dub")
        || containsStr issuing_norm "adhabi" || containsStr issuing_norm "adabi"
        || containsStr issuing_norm "abudhabi" || containsStr issuing_norm "abud" then
      some "Abu Dhabi"
    else if containsStr issuing_norm "duba" || containsStr issuing_norm "dubai"
        || containsStr issuing_norm "dubi" then
      some "Dubai"
    else if containsStr issuing_norm "abu dhabi" then
      some "Abu Dhabi"
    else if containsStr issuing_norm "dubai" then
      some "Dubai"
    else if issuing_raw ≠ "" then
      some (pyTitle (pyStripS issuing_raw))
    else
      none
  else
    none

/-- The substring-rule part of salary normalization (`views.py` lines
1702-1714): the `if/elif` chain over the lowered salary string,
including the fuzzy fallback string checks. Returns `none` when no
rule matches (the numeric fallback then applies). -/
def salaryRuleKey (salary_raw : String) : Option String :=
  if containsStr salary_raw "below" && containsStr salary_raw "4000" then
    some "below_4000"
  else if containsStr salary_raw "4000" && containsStr salary_raw "5000" then
    some "4000_5000"
  else if containsStr salary_raw "above" &&
      (containsStr salary_raw "5000" || containsStr salary_raw "5000") then
    some "above_5000"
  else if containsStr salary_raw "below 4000" || pyStripS salary_raw == "below 4000 aed"
      || pyStripS salary_raw == "below 4000" then
    some "below_4000"
  else if containsStr salary_raw "4000 - 5000" || containsStr salary_raw "4000-5000"
      || containsStr salary_raw "4000 to 5000" then
    some "4000_5000"
  else if containsStr salary_raw "above 5000" || containsStr salary_raw "more than 5000"
      || containsStr salary_raw "5000+" || containsStr salary_raw "5000 =" then
    some "above_5000"
  else
    none

/-- Salary normalization (`views.py` lines 1698-1727): the rule chain,
then the numeric first-integer fallback. `salary` is
`session.salary` (`None` ↦ `none`). -/
def normalizeSalary (salary : Option String) : Option String :=
  let salary_raw := pyLower (salary.getD "")
  match salaryRuleKey salary_raw with
  | some k => some k
  | none =>
    if salary_raw ≠ "" then
      match firstDigitRun salary_raw.data with
      | some n =>
        if n < 4000 then some "below_4000"
        else if 4000 ≤ n && n ≤ 5000 then some "4000_5000"
        else if n > 5000 then some "above_5000"
        else none
      | none => none
    else
      none

/-- A recommended insurance product (`{name, price, plan, url}`). -/
structure Product where
  name : String
  price : String
  plan : String
  url : String
  deriving DecidableEq, Repr

/-- The deterministic product table of `compute_products_based_on_data`
(`views.py` lines 1729-1766), keyed by the normalized place and the
normalized salary band. -/
def recommendTable (place salary_key : Option String) : List Product × Option String :=
  if place = some "Dubai" then
    if salary_key = some "below_4000" then
      ([⟨"DHA-Basic", "864.00", "NLSB", "https://gia-insurance-provider.com/dha-basic-nlsb"⟩],
       none)
    else if salary_key = some "4000_5000" ∨ salary_key = some "above_5000" then
      ([⟨"DHA-Basic", "864.00", "NLSB", "https://gia-insurance-provider.com/dha-basic-nlsb"⟩,
        ⟨"DHA-Basic", "1893.00", "LSB", "https://gia-insurance-provider.com/dha-basic-lsb"⟩],
       none)
    else
      ([⟨"DHA-Basic", "1893.00", "LSB", "https://gia-insurance-provider.com/dha-basic-lsb"⟩],
       none)
  else if place = some "Abu Dhabi" then
    if salary_key = some "below_4000" ∨ salary_key = some "4000_5000" then
      ([], some "The minimum requirement for this product plan is above 5000 AED")
    else if salary_key = some "above_5000" then
      ([⟨"Abu Dhabi Eligible Plan", "1350.00 AED", "Premium",
         "https://gia-insurance-provider.com/abu-dhabi-premium"⟩],
       none)
    else
      ([], some "Please ensure your salary is above 5000 AED to see available plans for Abu Dhabi.")
  else
    if salary_key = some "above_5000" then
      ([⟨"General Plan (Eligible)", "999.00 AED", "Standard",
         "https://gia-insurance-provider.com/general-plan"⟩],
       none)
    else
      ([], some "We couldn\x27t determine issuing place precisely. If you\x27d like, please confirm the issuing place (Dubai or Abu Dhabi).")

/-- `compute_products_based_on_data(session, record)` (`views.py`
lines 1678-1766): inputs are `session.salary` and
`record.issuing_place` (the only session/record fields it reads). -/
def compute_products_based_on_data (salary issuing_place : Option String) :
    List Product × Option String :=
  recommendTable (normalizePlace issuing_place) (normalizeSalary salary)

/-! ## Regex scanning machinery

`re.search` scans candidate start positions left to right and returns
the first position where the whole pattern matches; alternations are
tried in pattern order at each position, greedy quantifiers backtrack
from longest to shortest, lazy ones from shortest to longest.  The
functions below reproduce that behavior for the concrete patterns of
`parse_fields` / `parse_back_side_fields`. -/

/-- Try `step` at positions `start, start+1, ...` (`fuel` many); first
success wins.  This is `re.search`'s outer position scan. -/
def scanO {α : Type} (step : Nat → Option α) : Nat → Nat → Option α
  | _, 0 => none
  | start, fuel + 1 =>
    match step start with
    | some r => some r
    | none => scanO step (start + 1) fuel

/-- Case-insensitive literal match at the head of the text; returns
the remainder after the literal. -/
def matchCIPref : List Char → List Char → Option (List Char)
  | [], cs => some cs
  | _ :: _, [] => none
  | l :: ls, c :: cs =>
    if pyLowerChar c == pyLowerChar l then matchCIPref ls cs else none

/-- Second `\s*` of a `\s*[:\-]?\s*` separator: try consuming `b`
whitespace characters, backtracking from `b` down to `0`, then run the
continuation `k`. -/
def tailWsB {α : Type} (k : List Char → Option α) (cs : List Char) : Nat → Option α
  | 0 => k cs
  | b + 1 =>
    match k (cs.drop (b + 1)) with
    | some r => some r
    | none => tailWsB k cs b

/-- The `[:\-]?\s*` part of the separator: greedily take one `:` or
`-` if present (backtracking to the empty option), then the second
`\s*`. -/
def tailPunct {α : Type} (k : List Char → Option α) (cs : List Char) : Option α :=
  let withP : Option α :=
    match cs with
    | c :: rest =>
      if c == ':' || c == '-' then tailWsB k rest (countWhile isPySpace rest) else none
    | [] => none
  match withP with
  | some r => some r
  | none => tailWsB k cs (countWhile isPySpace cs)

/-- First `\s*` of the separator, backtracking from `a` whitespace
characters down to `0`. -/
def tailSA {α : Type} (k : List Char → Option α) (cs : List Char) : Nat → Option α
  | 0 => tailPunct k cs
  | a + 1 =>
    match tailPunct k (cs.drop (a + 1)) with
    | some r => some r
    | none => tailSA k cs a

/-- The full `\s*[:\-]?\s*` separator with Python's backtracking
order, followed by the continuation `k` (the capture group). -/
def sepTail {α : Type} (k : List Char → Option α) (cs : List Char) : Option α :=
  tailSA k cs (countWhile isPySpace cs)

/-- A greedy character-class capture `([c]{m,M})` at the end of a
pattern: the maximal run (capped at `M`) is captured; fails if fewer
than `m` characters match. -/
def classCapture (keep : Char → Bool) (m M : Nat) (cs : List Char) : Option (List Char) :=
  let len := min (countWhile keep cs) M
  if m ≤ len then some (cs.take len) else none

/-- An alternation capture `(A1|A2|...)` of case-insensitive literals:
first alternative (in pattern order) that matches; the captured text
is the input text, case preserved. -/
def altCapture (alts : List (List Char)) (cs : List Char) : Option (List Char) :=
  alts.findSome? (fun alt => (matchCIPref alt cs).map (fun _ => cs.take alt.length))

/-- One scan position of `(?i)(?:L1|L2|...)\s*[:\-]?\s*(GROUP)`:
labels tried in order, then the separator and the capture `k`. -/
def labelStep {α : Type} (labels : List String) (k : List Char → Option α)
    (full : List Char) (i : Nat) : Option α :=
  labels.findSome? (fun lbl =>
    match matchCIPref lbl.data (full.drop i) with
    | some rest => sepTail k rest
    | none => none)

/-- `re.search` of `(?i)(?:L1|L2|...)\s*[:\-]?\s*(GROUP)`. -/
def labelSearch {α : Type} (labels : List String) (k : List Char → Option α)
    (full : List Char) : Option α :=
  scanO (labelStep labels k full) 0 (full.length + 1)

/-- `[^\n\r]`. -/
def notNLR (c : Char) : Bool := !(c == '\n' || c == '\r')

/-- `[^\n]`. -/
def notNL (c : Char) : Bool := !(c == '\n')

/-- Class capture returning a `String`. -/
def strCap (keep : Char → Bool) (m M : Nat) (cs : List Char) : Option String :=
  (classCapture keep m M cs).map String.mk

/-! ### The date pattern `(\d{1,2}[\/\-]\d{1,2}[\/\-]\d{4})` -/

/-- Greedy `\d{1,2}`: candidate (consumed length, remainder) pairs in
backtracking order (two digits first). -/
def digitChunk12 : List Char → List (Nat × List Char)
  | [] => []
  | [a] => if a.isDigit then [(1, [])] else []
  | a :: b :: r =>
    if a.isDigit then
      if b.isDigit then [(2, r), (1, b :: r)] else [(1, b :: r)]
    else []

/-- Consume exactly `n` digits. -/
def splitDigits : Nat → List Char → Option (List Char)
  | 0, cs => some cs
  | _ + 1, [] => none
  | n + 1, c :: cs => if c.isDigit then splitDigits n cs else none

/-- `[\/\-]`. -/
def isDateSep (c : Char) : Bool := c == '/' || c == '-'

/-- Match the date pattern at the head of the text: returns the
matched length and the remainder. -/
def dateMatchAt (cs : List Char) : Option (Nat × List Char) :=
  (digitChunk12 cs).findSome? (fun p1 =>
    match p1.2 with
    | s1 :: r2 =>
      if isDateSep s1 then
        (digitChunk12 r2).findSome? (fun p2 =>
          match p2.2 with
          | s2 :: r4 =>
            if isDateSep s2 then
              match splitDigits 4 r4 with
              | some r5 => some (p1.1 + 1 + p2.1 + 1 + 4, r5)
              | none => none
            else none
          | [] => none)
      else none
    | [] => none)

/-- `re.findall` of the date pattern: non-overlapping matches, left to
right (fuel-bounded recursion; the fuel is the text length). -/
def dateFindallGo : Nat → List Char → List (List Char)
  | 0, _ => []
  | _ + 1, [] => []
  | fuel + 1, c :: rest =>
    match dateMatchAt (c :: rest) with
    | some (len, after) => (c :: rest).take len :: dateFindallGo fuel after
    | none => dateFindallGo fuel rest

/-- All dates in the text (`all_dates` in `parse_fields`). -/
def dateFindall (cs : List Char) : List (List Char) :=
  dateFindallGo cs.length cs

/-- The date capture used after a label: group 1 of
`LBL\s*[:\-]?\s*(\d{1,2}[\/\-]\d{1,2}[\/\-]\d{4})`. -/
def dateCap (cs : List Char) : Option (List Char) :=
  (dateMatchAt cs).map (fun p => cs.take p.1)

/-- `find_date_by_labels`: one `re.search` per label, first label with
a match anywhere wins. -/
def findDateByLabels (labels : List String) (full : List Char) : Option (List Char) :=
  labels.findSome? (fun lbl => labelSearch [lbl] dateCap full)

/-! ### The Emirates-ID pattern `\b\d{3}-\d{4}-\d{7}-\d\b` -/

/-- Word boundary to the left of position `i`. -/
def boundaryBeforeB (cs : List Char) (i : Nat) : Bool :=
  if i == 0 then true
  else
    match cs.get? (i - 1) with
    | some c => !isWordCh c
    | none => true

/-- Word boundary at position `j` (boundary to the right of a match
ending at `j`). -/
def boundaryAfterB (cs : List Char) (j : Nat) : Bool :=
  match cs.get? j with
  | some c => !isWordCh c
  | none => true

/-- The 18-character digit/hyphen shape `DDD-DDDD-DDDDDDD-D` (hyphens
at offsets 3, 8 and 16; digits elsewhere). -/
def eidShapeL (t : List Char) : Bool :=
  t.length == 18 &&
    (List.range 18).all (fun k =>
      if k == 3 || k == 8 || k == 16 then t.get? k == some '-'
      else
        match t.get? k with
        | some c => c.isDigit
        | none => false)

/-- The shape at position `i` of the text. -/
def eidShapeAt (cs : List Char) (i : Nat) : Bool :=
  eidShapeL ((cs.drop i).take 18)

/-- Full match of `\b\d{3}-\d{4}-\d{7}-\d\b` at position `i`. -/
def eidHit (cs : List Char) (i : Nat) : Bool :=
  boundaryBeforeB cs i && eidShapeAt cs i && boundaryAfterB cs (i + 18)

/-- `re.search(r"\b\d{3}-\d{4}-\d{7}-\d\b", raw)`: position of the
leftmost match. -/
def eidFind (cs : List Char) : Option Nat :=
  scanO (fun i => if eidHit cs i then some i else none) 0 (cs.length + 1)

/-- The 18 characters matched at position `i` (`m.group(0)`). -/
def eidTokenStr (cs : List Char) (i : Nat) : String :=
  String.mk ((cs.drop i).take 18)

/-! ## `parse_fields` (front-side extractor, `views.py` lines 287-478)

A Python statement that could raise an uncaught exception (unguarded
indexing / dict access) is embedded with an `Option`-valued result
whose `none` marks the exception.  The corresponding guards of the
source are embedded as written, so these `none`s are provably
unreachable (claim C9). -/

/-- The stopword list of `parse_fields`. -/
def stopwords : List String :=
  ["resident", "identity", "card", "id number", "id no", "number",
   "nationality", "date of birth", "date", "expiry", "issuing",
   "signature", "sex", "passport", "signature/", "issue"]

/-- The name label alternation `Name|NAME|الاسم|اسم`. -/
def nameLabels : List String := ["Name", "NAME", "الاسم", "اسم"]

/-- `Nationality|الجنسية`. -/
def natLabels : List String := ["Nationality", "الجنسية"]

/-- `Address|العنوان`. -/
def addrLabels : List String := ["Address", "العنوان"]

/-- `Sex|Gender|الجنس`. -/
def genderLabels : List String := ["Sex", "Gender", "الجنس"]

/-- Labels tried for the date of birth. -/
def dobLabels : List String := ["Date of Birth", "DOB", "Birth", "تاريخ الميلاد"]

/-- Labels tried for the issuing date. -/
def issuingLabels : List String :=
  ["Issuing Date", "Issue Date", "Issuing", "Date of Issue", "تاريخ الإصدار"]

/-- Labels tried for the expiry date. -/
def expiryLabels : List String := ["Expiry Date", "Expiry", "تاريخ الانتهاء"]

/-- Section 1 of `parse_fields`: the Emirates-ID number. -/
def eidSection (raw : List Char) (d : FieldMap) : FieldMap :=
  match eidFind raw with
  | some i => dinsert d "emirates_id" (pyStripS (eidTokenStr raw i))
  | none => d

/-- `re.sub(r"[\:\-\/\|]+$", "", s)` for `s` without line breaks. -/
def trailingPunctSub (s : String) : String :=
  String.mk (pyRstripBy (fun c => c == ':' || c == '-' || c == '/' || c == '|') s.data)

/-- Section 2 of `parse_fields`: the labeled name. -/
def labeledNameSection (raw : List Char) (d : FieldMap) : FieldMap :=
  match labelSearch nameLabels (strCap notNLR 2 80) raw with
  | some v => dinsert d "name" (pyStripS (trailingPunctSub (pyStripS v)))
  | none => d

/-- `lines = [l.strip() for l in normalized.splitlines() if l.strip()]`. -/
def linesOf (normalized : String) : List String :=
  ((pySplitlines normalized).map pyStripS).filter (fun l => l ≠ "")

/-- `any(sw in line.lower() for sw in stopwords)`. -/
def lineHasStopword (line : String) : Bool :=
  stopwords.any (fun sw => containsStr (pyLower line) sw)

/-- The filter applied to the line following a name candidate. -/
def nextOkForName (nxt : String) : Bool :=
  !lineHasStopword nxt && !hasDigit nxt && (pySplitWs nxt).length ≤ 3

/-- The fallback-name loop of section 3, over `enumerate(lines)`.
Outer `none` models an uncaught `IndexError` at `lines[idx + 1]`;
`some none` means no candidate was found. -/
def goNameLines (lines : List String) : List (Nat × String) → Option (Option String)
  | [] => some none
  | (idx, line) :: rest =>
    if lineHasStopword line then goNameLines lines rest
    else if hasDigit line then goNameLines lines rest
    else if 2 ≤ (pySplitWs line).length && 3 < line.length then
      if containsStr (pyLower line) "united arab emirates"
          || containsStr (pyLower line) "arab emirates" then
        goNameLines lines rest
      else
        if idx + 1 < lines.length then
          match lines.get? (idx + 1) with
          | some nxt =>
            if nextOkForName nxt then some (some (line ++ " " ++ nxt))
            else some (some line)
          | none => none
        else some (some line)
    else goNameLines lines rest

/-- Section 3 of `parse_fields`: fallback name detection. -/
def fallbackNameSection (lines : List String) (d : FieldMap) : Option FieldMap :=
  if hasKeyF "name" d then some d
  else
    match goNameLines lines lines.enum with
    | none => none
    | some none => some d
    | some (some cand) => some (if cand ≠ "" then dinsert d "name" cand else d)

/-- The month-name table of `format_date`. -/
def monthNames : List String :=
  ["Jan", "Feb", "Mar", "Apr", "May", "Jun",
   "Jul", "Aug", "Sep", "Oct", "Nov", "Dec"]

/-- `format_date` of `parse_fields`: reformat `D/M/YYYY`-shaped
strings to a named month; the bare `except` returns the input
unchanged on any failure, so the embedding is total. -/
def formatDate (date_str : String) : String :=
  let cont := fun (parts : List String) =>
    match parts with
    | [day, month, year] =>
      if pyIsdigit month && 1 ≤ natOfDigits month.data && natOfDigits month.data ≤ 12 then
        match monthNames.get? (natOfDigits month.data - 1) with
        | some m => day ++ "/" ++ m ++ "/" ++ year
        | none => date_str
      else day ++ "/" ++ month ++ "/" ++ year
    | _ => date_str
  if date_str.data.contains '/' then cont (date_str.splitOn "/")
  else if date_str.data.contains '-' then cont (date_str.splitOn "-")
  else date_str

/-- The positional expiry heuristic of section 4:
`if "expiry_date" not in data and all_dates: data["expiry_date"] =
format_date(all_dates[-1])` (the `all_dates[-1]` access modelled with
`getLast?`). -/
def datesStep1 (all_dates : List (List Char)) (d : FieldMap) : Option FieldMap :=
  if !hasKeyF "expiry_date" d && !all_dates.isEmpty then
    match all_dates.getLast? with
    | some last => some (dinsert d "expiry_date" (formatDate (String.mk last)))
    | none => none
  else some d

/-- The positional issuing heuristic of section 4:
`if not issuing and all_dates: if len(all_dates) >= 2:
data["issuing_date"] = format_date(all_dates[1])`. -/
def datesStep2 (issuing : Option (List Char)) (all_dates : List (List Char))
    (d : FieldMap) : Option FieldMap :=
  if issuing.isNone && !all_dates.isEmpty then
    if 2 ≤ all_dates.length then
      match all_dates.get? 1 with
      | some snd => some (dinsert d "issuing_date" (formatDate (String.mk snd)))
      | none => none
    else some d
  else some d

/-- Insert a labeled date match (reformatted) under `key`, when found. -/
def insDate (key : String) (res : Option (List Char)) (d : FieldMap) : FieldMap :=
  match res with
  | some v => dinsert d key (formatDate (String.mk v))
  | none => d

/-- The three labeled-date updates of section 4, in source order. -/
def datesLabeled (raw : List Char) (d : FieldMap) : FieldMap :=
  insDate "expiry_date" (findDateByLabels expiryLabels raw)
    (insDate "issuing_date" (findDateByLabels issuingLabels raw)
      (insDate "dob" (findDateByLabels dobLabels raw) d))

/-- Section 4 of `parse_fields`: dates (labeled matches, then the
positional heuristics for expiry and issuing dates). -/
def datesSection (raw : List Char) (d : FieldMap) : Option FieldMap :=
  (datesStep1 (dateFindall raw) (datesLabeled raw d)).bind
    (datesStep2 (findDateByLabels issuingLabels raw) (dateFindall raw))

/-- Section 5 of `parse_fields`: nationality. -/
def natSection (raw : List Char) (d : FieldMap) : FieldMap :=
  match labelSearch natLabels (strCap notNLR 2 80) raw with
  | some v => dinsert d "nationality" (pyStripS v)
  | none => d

/-- `Male|Female|M|F|ذكر|أنثى`. -/
def genderAlts : List String := ["Male", "Female", "M", "F", "ذكر", "أنثى"]

/-- `SCANNE|SCANNED|SCAN|SCANNING`. -/
def scanArtifactAlts : List String := ["SCANNE", "SCANNED", "SCAN", "SCANNING"]

/-- Gender pattern 1: label then an explicit value alternation. -/
def genderP1 (raw : List Char) : Option String :=
  labelSearch genderLabels
    (fun cs => (altCapture (genderAlts.map String.data) cs).map String.mk) raw

/-- Gender pattern 2: label then any short `[^\n]{1,20}` value. -/
def genderP2 (raw : List Char) : Option String :=
  labelSearch genderLabels (strCap notNL 1 20) raw

/-- Gender pattern 3: a bare scan-artifact alternation. -/
def genderP3 (raw : List Char) : Option String :=
  scanO (fun i => (altCapture (scanArtifactAlts.map String.data) (raw.drop i)).map String.mk)
    0 (raw.length + 1)

/-- `any(word in val.upper() for word in ["SCAN", "SCANNED", "SCANNING"])`. -/
def scanWordIn (val : String) : Bool :=
  ["SCAN", "SCANNED", "SCANNING"].any (fun w => containsStr (pyUpper val) w)

/-- The gender pattern loop: first pattern whose stripped value is
nonempty and not a scan artifact. -/
def genderLoop : List (Option String) → Option String
  | [] => none
  | r :: rest =>
    match r with
    | some g =>
      let val := pyStripS g
      if val ≠ "" && !scanWordIn val then some val else genderLoop rest
    | none => genderLoop rest

/-- Section 6 of `parse_fields`: sex / gender with normalization. -/
def genderSection (raw : List Char) (d : FieldMap) : FieldMap :=
  match genderLoop [genderP1 raw, genderP2 raw, genderP3 raw] with
  | none => d
  | some gv =>
    let val := pyUpper gv
    if val == "M" || val == "MALE" || val == "ذكر" then
      dinsert (dinsert d "gender" "Male") "sex" "Male"
    else if val == "F" || val == "FEMALE" || val == "أنثى" then
      dinsert (dinsert d "gender" "Female") "sex" "Female"
    else
      dinsert (dinsert d "gender" gv) "sex" gv

/-- The nationality-adjacent address loop of section 7, over
`enumerate(lines)`.  Outer `none` models the guarded `lines[idx + 1]`
as in `goNameLines`. -/
def goAddrLines (nat_low : String) (lines : List String) :
    List (Nat × String) → Option (Option String)
  | [] => some none
  | (idx, line) :: rest =>
    if containsStr (pyLower line) nat_low then
      if idx + 1 < lines.length then
        match lines.get? (idx + 1) with
        | some cand =>
          if 4 < cand.length && !hasDigit cand then some (some cand)
          else goAddrLines nat_low lines rest
        | none => none
      else goAddrLines nat_low lines rest
    else goAddrLines nat_low lines rest

/-- The bottom-up address fallback of section 7 (called on the
reversed line list). -/
def addrFallbackRev : List String → Option String
  | [] => none
  | l :: rest =>
    if lineHasStopword l then addrFallbackRev rest
    else if hasDigit l then addrFallbackRev rest
    else if 2 ≤ (pySplitWs l).length then some l
    else addrFallbackRev rest

/-- The bottom-up fallback applied after the heuristic step (the
`if "address" not in data` block). -/
def addrFallbackApply (lines : List String) (d : FieldMap) : FieldMap :=
  if !hasKeyF "address" d then
    match addrFallbackRev lines.reverse with
    | some l => dinsert d "address" l
    | none => d
  else d

/-- Section 7 of `parse_fields`: address (label match, then the
nationality-adjacent heuristic, then the bottom-up fallback).  The
`Option.bind`s propagate the modelled exceptions of the nationality
dict access and of `goAddrLines`. -/
def addrSection (raw : List Char) (lines : List String) (d : FieldMap) : Option FieldMap :=
  match labelSearch addrLabels (strCap notNLR 2 140) raw with
  | some v => some (dinsert d "address" (pyStripS v))
  | none =>
    let step1 : Option FieldMap :=
      if hasKeyF "nationality" d then
        (lookupF "nationality" d).bind (fun natv =>
          (goAddrLines (pyLower natv) lines lines.enum).map (fun res =>
            match res with
            | some cand => dinsert d "address" cand
            | none => d))
      else some d
    step1.map (addrFallbackApply lines)

/-- The final post-processing of `parse_fields`:
`v.strip().rstrip(":").strip()` on every value. -/
def stripVal (v : String) : String :=
  pyStripS (String.mk (pyRstripBy (fun c => c == ':') (pyStripS v).data))

/-- Apply `stripVal` to every entry (the final `for k, v in data.items()` loop). -/
def stripAll (d : FieldMap) : FieldMap :=
  d.map (fun kv => (kv.1, stripVal kv.2))

/-- The `normalized` local of `parse_fields`:
`raw.replace("\\r", "\\n")`. -/
def normalizedOf (text : String) : String :=
  String.mk (text.data.map (fun c => if c == '\r' then '\n' else c))

/-- `parse_fields` (`views.py` lines 287-478): sections 1-7 in source
order, then the final strip of every value.  `none` marks an uncaught
exception (provably unreachable, claim C9). -/
def parse_fields (text : String) : Option FieldMap :=
  (fallbackNameSection (linesOf (normalizedOf text))
      (labeledNameSection text.data (eidSection text.data []))).bind (fun d =>
    (datesSection text.data d).bind (fun d =>
      (addrSection text.data (linesOf (normalizedOf text))
          (genderSection text.data (natSection text.data d))).map stripAll))

/-! ## `parse_back_side_fields` (`views.py` lines 1380-1446) -/

/-- `Occupation|المهنة|Profession|الوظيفة`. -/
def occLabels : List String := ["Occupation", "المهنة", "Profession", "الوظيفة"]

/-- `Employer|صاحب العمل|Company|الشركة|جهة العمل`. -/
def empLabels : List String := ["Employer", "صاحب العمل", "Company", "الشركة", "جهة العمل"]

/-- `Issuing Place|مكان الإصدار|Place of Issue|جهة الإصدار`. -/
def iplLabels : List String :=
  ["Issuing Place", "مكان الإصدار", "Place of Issue", "جهة الإصدار"]

/-- `Family Sponsor|كفالة عائلية|Sponsor|كفالة|الکفالة` (the last
entry uses the keheh variant exactly as in the source). -/
def fsLabels : List String :=
  ["Family Sponsor", "كفالة عائلية", "Sponsor", "كفالة", "الکفالة"]

/-- `Yes|No|نعم|لا|Y|N`. -/
def fsAlts : List String := ["Yes", "No", "نعم", "لا", "Y", "N"]

/-- The lookahead `(?=\n|$)` of the back-side gap patterns. -/
def lookaheadOK : List Char → Bool
  | [] => true
  | c :: _ => c == '\n'

/-- Greedy capture with the `(?=\n|$)` lookahead, backtracking the
captured length from the argument down to `0`. -/
def capLAGo (m : Nat) (p : List Char) : Nat → Option (List Char)
  | 0 => if m == 0 && lookaheadOK p then some [] else none
  | len + 1 =>
    if m ≤ len + 1 && lookaheadOK (p.drop (len + 1)) then some (p.take (len + 1))
    else capLAGo m p len

/-- `([^\n\r]{m,M})(?=\n|$)`: greedy class capture with lookahead. -/
def classCapLA (keep : Char → Bool) (m M : Nat) (cs : List Char) : Option (List Char) :=
  capLAGo m cs (min (countWhile keep cs) M)

/-- The lazy gap `[\s\S]{1,maxGap}?` followed by the continuation
`k`, gaps tried in ascending order. -/
def lazyGapGo {α : Type} (k : List Char → Option α) (cs : List Char) : Nat → Nat → Option α
  | _, 0 => none
  | g, fuel + 1 =>
    if g ≤ cs.length then
      match k (cs.drop g) with
      | some r => some r
      | none => lazyGapGo k cs (g + 1) fuel
    else none

/-- `[\s\S]{1,maxGap}?` then `k`. -/
def lazyGap {α : Type} (k : List Char → Option α) (cs : List Char) (maxGap : Nat) : Option α :=
  lazyGapGo k cs 1 maxGap

/-- `re.sub(r"[^\w\s\-]", "", s)`. -/
def cleanWsHyph (s : String) : String :=
  String.mk (s.data.filter (fun c => isWordCh c || isPySpace c || c == '-'))

/-- Back-side pattern (a): `LABELS\s*[:\-]?\s*([^\n\r]{2,80})`. -/
def backSearchA (labels : List String) (raw : List Char) : Option String :=
  labelSearch labels (strCap notNLR 2 80) raw

/-- Back-side pattern (b):
`LABELS[\s\S]{1,100}?([^\n\r]{2,80})(?=\n|$)`. -/
def backSearchB (labels : List String) (raw : List Char) : Option String :=
  scanO (fun i => labels.findSome? (fun lbl =>
      match matchCIPref lbl.data (raw.drop i) with
      | some rest => lazyGap (fun cs => (classCapLA notNLR 2 80 cs).map String.mk) rest 100
      | none => none))
    0 (raw.length + 1)

/-- The per-field pattern loop for the three free-text back fields:
each matched value is stripped and cleaned, and accepted only when its
length exceeds 1; otherwise the next pattern is tried. -/
def backFreeField (labels : List String) (raw : List Char) : Option String :=
  match backSearchA labels raw with
  | some g =>
    let v := cleanWsHyph (pyStripS g)
    if 1 < v.length then some v
    else
      match backSearchB labels raw with
      | some g2 =>
        let v2 := cleanWsHyph (pyStripS g2)
        if 1 < v2.length then some v2 else none
      | none => none
  | none =>
    match backSearchB labels raw with
    | some g2 =>
      let v2 := cleanWsHyph (pyStripS g2)
      if 1 < v2.length then some v2 else none
    | none => none

/-- Family-sponsor pattern (a): label, separator, `Yes/No` alternation. -/
def fsSearchA (raw : List Char) : Option String :=
  labelSearch fsLabels
    (fun cs => (altCapture (fsAlts.map String.data) cs).map String.mk) raw

/-- Family-sponsor pattern (b): label, lazy gap `[\s\S]{1,50}?`,
`Yes/No` alternation. -/
def fsSearchB (raw : List Char) : Option String :=
  scanO (fun i => fsLabels.findSome? (fun lbl =>
      match matchCIPref lbl.data (raw.drop i) with
      | some rest =>
        lazyGap (fun cs => (altCapture (fsAlts.map String.data) cs).map String.mk) rest 50
      | none => none))
    0 (raw.length + 1)

/-- Normalize a matched family-sponsor token into the stored value. -/
def fsInterpret (g : String) (d : FieldMap) : FieldMap :=
  let value := pyLower (pyStripS g)
  if value == "yes" || value == "y" || value == "نعم" then
    dinsert d "family_sponsor" "Yes"
  else if value == "no" || value == "n" || value == "لا" then
    dinsert d "family_sponsor" "No"
  else d

/-- The family-sponsor section: first matching pattern wins and the
loop breaks. -/
def fsSection (raw : List Char) (d : FieldMap) : FieldMap :=
  match fsSearchA raw with
  | some g => fsInterpret g d
  | none =>
    match fsSearchB raw with
    | some g => fsInterpret g d
    | none => d

/-- `parse_back_side_fields` (`views.py` lines 1380-1446). Total: no
statement of the source can raise. -/
def parse_back_side_fields (text : String) : FieldMap :=
  let raw := text.data
  let d : FieldMap := []
  let d := match backFreeField occLabels raw with
    | some v => dinsert d "occupation" v
    | none => d
  let d := match backFreeField empLabels raw with
    | some v => dinsert d "employer" v
    | none => d
  let d := match backFreeField iplLabels raw with
    | some v => dinsert d "issuing_place" v
    | none => d
  fsSection raw d

/-! ## `EmiratesIDRecord` and the merge of `emirates_id_upload` -/

/-- The string-valued identity fields of `EmiratesIDRecord`
(`src/api/models.py`).  The model's bookkeeping columns (uuid, status,
timestamps, raw_response) carry no extracted data and are not
modelled. -/
inductive FieldName
  | emirates_id
  | name
  | dob
  | issuing_date
  | nationality
  | gender
  | address
  | occupation
  | employer
  | issuing_place
  | family_sponsor
  | family_sponsor_name
  | expiry_date
  deriving DecidableEq, Repr

/-- One `EmiratesIDRecord` row (identity fields; `none` is SQL NULL). -/
structure Record where
  emirates_id : Option String := none
  name : Option String := none
  dob : Option String := none
  issuing_date : Option String := none
  nationality : Option String := none
  gender : Option String := none
  address : Option String := none
  occupation : Option String := none
  employer : Option String := none
  issuing_place : Option String := none
  family_sponsor : Option String := none
  family_sponsor_name : Option String := none
  expiry_date : Option String := none
  deriving DecidableEq, Repr

/-- The column name of a field. -/
def fieldKey : FieldName → String
  | .emirates_id => "emirates_id"
  | .name => "name"
  | .dob => "dob"
  | .issuing_date => "issuing_date"
  | .nationality => "nationality"
  | .gender => "gender"
  | .address => "address"
  | .occupation => "occupation"
  | .employer => "employer"
  | .issuing_place => "issuing_place"
  | .family_sponsor => "family_sponsor"
  | .family_sponsor_name => "family_sponsor_name"
  | .expiry_date => "expiry_date"

/-- `hasattr(record, s)` for the modelled fields: the field named `s`,
if any.  Extractor keys without a record column (such as `sex`) map to
`none`. -/
def parseFieldName (s : String) : Option FieldName :=
  match s with
  | "emirates_id" => some .emirates_id
  | "name" => some .name
  | "dob" => some .dob
  | "issuing_date" => some .issuing_date
  | "nationality" => some .nationality
  | "gender" => some .gender
  | "address" => some .address
  | "occupation" => some .occupation
  | "employer" => some .employer
  | "issuing_place" => some .issuing_place
  | "family_sponsor" => some .family_sponsor
  | "family_sponsor_name" => some .family_sponsor_name
  | "expiry_date" => some .expiry_date
  | _ => none

/-- `getattr(record, f)`. -/
def getField (r : Record) : FieldName → Option String
  | .emirates_id => r.emirates_id
  | .name => r.name
  | .dob => r.dob
  | .issuing_date => r.issuing_date
  | .nationality => r.nationality
  | .gender => r.gender
  | .address => r.address
  | .occupation => r.occupation
  | .employer => r.employer
  | .issuing_place => r.issuing_place
  | .family_sponsor => r.family_sponsor
  | .family_sponsor_name => r.family_sponsor_name
  | .expiry_date => r.expiry_date

/-- `setattr(record, f, v)`. -/
def setField (r : Record) : FieldName → String → Record
  | .emirates_id, v => { r with emirates_id := some v }
  | .name, v => { r with name := some v }
  | .dob, v => { r with dob := some v }
  | .issuing_date, v => { r with issuing_date := some v }
  | .nationality, v => { r with nationality := some v }
  | .gender, v => { r with gender := some v }
  | .address, v => { r with address := some v }
  | .occupation, v => { r with occupation := some v }
  | .employer, v => { r with employer := some v }
  | .issuing_place, v => { r with issuing_place := some v }
  | .family_sponsor, v => { r with family_sponsor := some v }
  | .family_sponsor_name, v => { r with family_sponsor_name := some v }
  | .expiry_date, v => { r with expiry_date := some v }

/-- The update loop of `emirates_id_upload` (lines 773-777):
`for field, value in data.items(): if hasattr(record, field) and
value: setattr(record, field, value)`. -/
def updateRecord : Record → FieldMap → Record
  | r, [] => r
  | r, (k, v) :: rest =>
    updateRecord
      (if v ≠ "" then
        match parseFieldName k with
        | some f => setField r f v
        | none => r
      else r) rest

/-- The last entry of the map for key `k` carrying a non-empty value
(the value `updateRecord` leaves in field `k`). -/
def lastNonEmptyF (k : String) : FieldMap → Option String
  | [] => none
  | (k0, v0) :: rest =>
    match lastNonEmptyF k rest with
    | some v => some v
    | none => if k0 == k && v0 != "" then some v0 else none

/-- The `get_or_create` defaults of `emirates_id_upload` (lines
747-769): the record created on first upload. -/
def mkRecord (front back : FieldMap) (fsn : Option String) : Record :=
  { emirates_id := lookupF "emirates_id" front
    name := lookupF "name" front
    dob := lookupF "dob" front
    nationality := lookupF "nationality" front
    gender := lookupF "gender" front
    address := lookupF "address" front
    issuing_date := lookupF "issuing_date" front
    expiry_date := lookupF "expiry_date" front
    occupation := lookupF "occupation" back
    employer := lookupF "employer" back
    issuing_place := lookupF "issuing_place" back
    family_sponsor := lookupF "family_sponsor" back
    family_sponsor_name := fsn }

/-- The not-created branch (lines 771-784): the field loop plus the
separate family-sponsor-name update (`if family_sponsor_name:`). -/
def updateRecordFS (r : Record) (data : FieldMap) (fsn : Option String) : Record :=
  let r := updateRecord r data
  match fsn with
  | some s => if s ≠ "" then { r with family_sponsor_name := some s } else r
  | none => r

/-- Python falsiness of a nullable string column (`None` or `""`). -/
def isBlank : Option String → Bool
  | none => true
  | some s => s == ""

/-- `expected_front` of `emirates_id_upload` (lines 821-824). -/
def expected_front : List String :=
  ["emirates_id", "name", "dob", "nationality", "gender",
   "address", "issuing_date", "expiry_date"]

/-- `expected_back` of `emirates_id_upload` (lines 825-827). -/
def expected_back : List String :=
  ["occupation", "employer", "issuing_place"]

/-- `getattr(record, field, None)` by column name. -/
def getFieldByKey (r : Record) (k : String) : Option String :=
  match parseFieldName k with
  | some f => getField r f
  | none => none

/-- The `missing` computation (lines 847-852). -/
def computeMissing (r : Record) : List String :=
  let missing := (expected_front ++ expected_back).filter
    (fun f => isBlank (getFieldByKey r f))
  if r.family_sponsor == some "Yes" && isBlank r.family_sponsor_name then
    missing ++ ["family_sponsor_name"]
  else missing

/-! ## Upload orchestration (`emirates_id_upload`, lines 677-1003)

Only the post-OCR part is embedded: inputs are the per-file
`(filename, ocr text)` pairs of a batch in which every OCR call
succeeded (a non-zero OCR status aborts the request before this code
runs). -/

/-- One processed file (the dict built at lines 713-718). -/
structure ProcessedFile where
  name : String
  text : String
  side : String
  is_pdf : Bool
  deriving DecidableEq, Repr

/-- Python `s.endswith(suf)`. -/
def pyEndsWith (s suf : String) : Bool :=
  startsWithL suf.data.reverse s.data.reverse

/-- Build the processed-file dict for one upload. -/
def processFile (name text : String) : ProcessedFile :=
  { name := name
    text := text
    side := detect_document_side text
    is_pdf := pyEndsWith (pyLower name) ".pdf" }

/-- `front_texts` (line 721): texts of files whose side is `front` or
`unknown`. -/
def frontTexts (pfs : List ProcessedFile) : List String :=
  (pfs.filter (fun f => f.side == "front" || f.side == "unknown")).map (fun f => f.text)

/-- `back_texts` (line 722). -/
def backTexts (pfs : List ProcessedFile) : List String :=
  (pfs.filter (fun f => f.side == "back")).map (fun f => f.text)

/-- `" ".join(texts) if texts else ""` (lines 725-726). -/
def combineTexts (texts : List String) : String :=
  if texts.isEmpty then "" else joinSp texts

/-- The side-fallback block (lines 729-732): an empty front blob takes
the back text; for an empty back blob the source assigns `""` (a
no-op). -/
def borrowTexts (front back : String) : String × String :=
  if front == "" && back != "" then (back, back)
  else if back == "" && front != "" then (front, "")
  else (front, back)

/-- `family sponsor name|اسم الكفيل|كفيل`. -/
def fsnLabels : List String := ["family sponsor name", "اسم الكفيل", "كفيل"]

/-- The family-sponsor-name search of lines 740-744 (the matched group
is stripped). -/
def sponsorNameSearch (back : String) : Option String :=
  (labelSearch fsnLabels (strCap notNLR 2 80) back.data).map pyStripS

/-- The outcome of one upload batch relevant to the response fields
modelled here. -/
structure UploadResult where
  fields : FieldMap
  missing_fields : List String
  front_combined : String
  back_combined : String
  record : Record
  deriving Repr

/-- Extraction, record create/merge and missing-field computation of
`emirates_id_upload`, taking the combined per-side texts (lines
734-864 of the source).  `prior` is the session's existing record, if
any; `none` as a result marks an uncaught exception inside
`parse_fields` (provably unreachable). -/
def uploadFromTexts (prior : Option Record) (front_c back_c : String) :
    Option UploadResult :=
  (parse_fields front_c).map (fun front_data =>
    let back_data := parse_back_side_fields back_c
    let fsn :=
      if lookupF "family_sponsor" back_data == some "Yes" then sponsorNameSearch back_c
      else none
    let record :=
      match prior with
      | none => mkRecord front_data back_data fsn
      | some r => updateRecordFS r (pyDictMerge front_data back_data) fsn
    { fields := pyDictMerge front_data back_data
      missing_fields := computeMissing record
      front_combined := front_c
      back_combined := back_c
      record := record })

/-- The post-OCR core of `emirates_id_upload`: side grouping, the text
fallback, then `uploadFromTexts`. -/
def emirates_id_upload_core (prior : Option Record) (files : List (String × String)) :
    Option UploadResult :=
  uploadFromTexts prior
    (borrowTexts (combineTexts (frontTexts (files.map (fun nt => processFile nt.1 nt.2))))
      (combineTexts (backTexts (files.map (fun nt => processFile nt.1 nt.2))))).1
    (borrowTexts (combineTexts (frontTexts (files.map (fun nt => processFile nt.1 nt.2))))
      (combineTexts (backTexts (files.map (fun nt => processFile nt.1 nt.2))))).2

/-- A label alternative whose first character is not lowered to a
space (true of every label literal of the source); used to show label
scans fail on whitespace-only text. -/
def goodLbl (lbl : String) : Bool :=
  match lbl.data with
  | [] => false
  | c :: _ => pyLowerChar c != ' '

/-! ## Theorems -/

/-- C1: for every pair of a normalized issuing place and a salary band
— including an unrecognized place and an unknown band — the
recommendation function returns exactly one of a non-empty product
list or a non-null advisory message: never both and never neither.
Stated over all raw inputs (`session.salary`, `record.issuing_place`),
hence over every normalized pair the normalizers can produce. -/
theorem recommend_exactly_one_of_products_or_message
    (salary issuing_place : Option String) :
    ((compute_products_based_on_data salary issuing_place).1 ≠ [] ∧
      (compute_products_based_on_data salary issuing_place).2 = none) ∨
    ((compute_products_based_on_data salary issuing_place).1 = [] ∧
      (compute_products_based_on_data salary issuing_place).2 ≠ none) := by
  unfold compute_products_based_on_data recommendTable
  split_ifs <;> simp

/-- C2: for place Dubai and salary band `4000_5000` or `above_5000`,
the recommendation is exactly the two products NLSB at 864.00 and LSB
at 1893.00, with no advisory message. -/
theorem dubai_mid_high_band_two_products :
    recommendTable (some "Dubai") (some "4000_5000") =
      ([⟨"DHA-Basic", "864.00", "NLSB", "https://gia-insurance-provider.com/dha-basic-nlsb"⟩,
        ⟨"DHA-Basic", "1893.00", "LSB", "https://gia-insurance-provider.com/dha-basic-lsb"⟩],
       none) ∧
    recommendTable (some "Dubai") (some "above_5000") =
      ([⟨"DHA-Basic", "864.00", "NLSB", "https://gia-insurance-provider.com/dha-basic-nlsb"⟩,
        ⟨"DHA-Basic", "1893.00", "LSB", "https://gia-insurance-provider.com/dha-basic-lsb"⟩],
       none) := by
  constructor <;> rfl

/-- C7: the side classifier returns `back` exactly when the
back-keyword hit count strictly exceeds the front count, `front`
exactly when the front count strictly exceeds the back count, and
`unknown` exactly when the counts are equal; the empty text scores
zero on both sides (hence `unknown`). -/
theorem side_classifier_trichotomy :
    (∀ t : String,
      (detect_document_side t = "back" ↔ backScore t > frontScore t) ∧
      (detect_document_side t = "front" ↔ frontScore t > backScore t) ∧
      (detect_document_side t = "unknown" ↔ backScore t = frontScore t)) ∧
    backScore "" = 0 ∧ frontScore "" = 0 ∧ detect_document_side "" = "unknown" := by
  refine ⟨fun t => ?_, by decide, by decide, by decide⟩
  unfold detect_document_side
  rcases Nat.lt_trichotomy (frontScore t) (backScore t) with h | h | h
  · rw [if_pos h]
    refine ⟨⟨fun _ => h, fun _ => rfl⟩, ⟨fun hc => ?_, fun hc => ?_⟩, ⟨fun hc => ?_, fun hc => ?_⟩⟩
    · exact absurd hc (by decide)
    · omega
    · exact absurd hc (by decide)
    · omega
  · rw [if_neg (by omega), if_neg (by omega)]
    refine ⟨⟨fun hc => ?_, fun hc => ?_⟩, ⟨fun hc => ?_, fun hc => ?_⟩, ⟨fun _ => h.symm, fun _ => rfl⟩⟩
    · exact absurd hc (by decide)
    · omega
    · exact absurd hc (by decide)
    · omega
  · rw [if_neg (by omega), if_pos h]
    refine ⟨⟨fun hc => ?_, fun hc => ?_⟩, ⟨fun _ => h, fun _ => rfl⟩, ⟨fun hc => ?_, fun hc => ?_⟩⟩
    · exact absurd hc (by decide)
    · omega
    · exact absurd hc (by decide)
    · omega

/-- C10: the back-indicator list contains `employer` and `occupation`
twice each, so a text containing the single back keyword `employer`
gets a back score of 2; with the single front keyword `name` (front
score 1) it classifies as `back`, not `unknown`. -/
theorem duplicate_back_keywords_make_employer_win :
    back_indicators.count "employer" = 2 ∧
    back_indicators.count "occupation" = 2 ∧
    backScore "Employer Name" = 2 ∧
    frontScore "Employer Name" = 1 ∧
    detect_document_side "Employer Name" = "back" := by
  refine ⟨by decide, by decide, by decide, by decide, by decide⟩

/-- C8: salary normalization maps the canonical answers to their
bands, and for an answer matching no substring rule the first integer
of the string is bucketed: below 4000, between 4000 and 5000
inclusive, above 5000; with no rule match and no digits the band stays
unknown (`none`). -/
theorem salary_normalization_rules_and_numeric_fallback :
    normalizeSalary (some "4000 - 5000 AED") = some "4000_5000" ∧
    normalizeSalary (some "above 5000 AED") = some "above_5000" ∧
    normalizeSalary (some "3200") = some "below_4000" ∧
    ∀ s : String, salaryRuleKey (pyLower s) = none →
      normalizeSalary (some s) =
        (firstDigitRun (pyLower s).data).map (fun n =>
          if n < 4000 then "below_4000"
          else if n ≤ 5000 then "4000_5000"
          else "above_5000") := by
  refine ⟨by decide, by decide, by decide, fun s h => ?_⟩
  unfold normalizeSalary
  simp only [Option.getD_some, h]
  by_cases hempty : pyLower s = ""
  · have hdata : (pyLower s).data = [] := by
      rw [hempty]
    simp [hempty, hdata, firstDigitRun]
  · simp only [ne_eq, hempty, not_false_eq_true, if_true]
    cases hrun : firstDigitRun (pyLower s).data with
    | none => rfl
    | some n =>
      simp only [Option.map_some', Bool.and_eq_true, decide_eq_true_eq]
      split_ifs <;> first | rfl | omega

/-- Witness for C8: the free-text answer `reply 4500 aed` matches no
substring rule, and the numeric fallback buckets its first integer
4500 into the middle band. -/
theorem salary_normalization_rules_and_numeric_fallback_witness :
    salaryRuleKey (pyLower "reply 4500 aed") = none ∧
    normalizeSalary (some "reply 4500 aed") = some "4000_5000" := by
  refine ⟨by decide, ?_⟩
  have h := salary_normalization_rules_and_numeric_fallback.2.2.2 "reply 4500 aed" (by decide)
  rw [h]
  decide

/-- Reading a field just written by `setField`. -/
theorem getField_setField_same (r : Record) (f : FieldName) (v : String) :
    getField (setField r f v) f = some v := by
  cases f <;> rfl

/-- `setField` leaves other fields unchanged. -/
theorem getField_setField_ne (r : Record) (g f : FieldName) (v : String) (h : g ≠ f) :
    getField (setField r g v) f = getField r f := by
  cases g <;> cases f <;> first | rfl | exact absurd rfl h

/-- `parseFieldName` inverts `fieldKey`. -/
theorem parseFieldName_fieldKey (f : FieldName) : parseFieldName (fieldKey f) = some f := by
  cases f <;> rfl

/-- `fieldKey` inverts `parseFieldName`. -/
theorem fieldKey_parseFieldName {s : String} {g : FieldName}
    (h : parseFieldName s = some g) : fieldKey g = s := by
  unfold parseFieldName at h
  split at h
  all_goals try (injection h with h2; subst h2; rfl)
  exact Option.noConfusion h

/-- C5: the merge loop of `emirates_id_upload` on an existing record
is last-write-wins per field — a field ends up holding the last
non-empty extracted value for its key, and keeps its stored value when
every extracted value for the key is empty or absent.  In particular a
populated field is never overwritten with an empty value. -/
theorem merge_field_last_write_wins (r : Record) (data : FieldMap) (f : FieldName) :
    getField (updateRecord r data) f =
      match lastNonEmptyF (fieldKey f) data with
      | some v => some v
      | none => getField r f := by
  induction data generalizing r with
  | nil => rfl
  | cons kv rest ih =>
    obtain ⟨k0, v0⟩ := kv
    rw [show updateRecord r ((k0, v0) :: rest) =
      updateRecord
        (if v0 ≠ "" then
          match parseFieldName k0 with
          | some g => setField r g v0
          | none => r
        else r) rest from rfl]
    rw [ih]
    cases hrest : lastNonEmptyF (fieldKey f) rest with
    | some v => simp [lastNonEmptyF, hrest]
    | none =>
      simp only [lastNonEmptyF, hrest]
      by_cases hv : v0 = ""
      · subst hv
        simp
      · rw [if_pos hv]
        by_cases hk : k0 = fieldKey f
        · subst hk
          rw [parseFieldName_fieldKey]
          simp [getField_setField_same, hv]
        · have hbeq : (k0 == fieldKey f) = false := by
            simp [hk]
          simp only [hbeq, Bool.false_and, if_neg (by simp : ¬(false = true))]
          cases hp : parseFieldName k0 with
          | none => rfl
          | some g =>
            have hg : g ≠ f := by
              intro he
              subst he
              exact hk (fieldKey_parseFieldName hp).symm
            exact getField_setField_ne r g f v0 hg

/-- C3: the side-fallback is one-directional in the code.  For a batch
whose single file classifies as front, the combined back blob stays
`""` (the source's `back_combined = ""` branch is a no-op) instead of
borrowing the front text; for a batch whose single file classifies as
back, the front blob does borrow the back text. -/
theorem back_blob_not_borrowed_from_front :
    (borrowTexts
        (combineTexts (frontTexts [processFile "id_front.jpg" "Name: John Smith\nNationality: India"]))
        (combineTexts (backTexts [processFile "id_front.jpg" "Name: John Smith\nNationality: India"]))
      = ("Name: John Smith\nNationality: India", "")) ∧
    (borrowTexts
        (combineTexts (frontTexts [processFile "id_back.jpg" "Occupation: Engineer\nEmployer: ACME"]))
        (combineTexts (backTexts [processFile "id_back.jpg" "Occupation: Engineer\nEmployer: ACME"]))
      = ("Occupation: Engineer\nEmployer: ACME", "Occupation: Engineer\nEmployer: ACME")) := by
  constructor <;> decide

/-- A key present in the map can be looked up. -/
theorem lookupF_isSome_of_hasKeyF {k : String} {m : FieldMap}
    (h : hasKeyF k m = true) : (lookupF k m).isSome := by
  unfold lookupF
  rw [Option.isSome_map']
  exact List.find?_isSome.mpr (List.any_eq_true.mp h)

/-- The fallback-name loop never hits its index-error branch. -/
theorem goNameLines_isSome (lines : List String) (l : List (Nat × String)) :
    (goNameLines lines l).isSome := by
  induction l with
  | nil => rfl
  | cons p rest ih =>
    obtain ⟨idx, line⟩ := p
    simp only [goNameLines]
    split_ifs with h1 h2 h3 h4 h5
    · exact ih
    · exact ih
    · exact ih
    · cases hg : lines.get? (idx + 1) with
      | none =>
        rw [List.get?_eq_none] at hg
        omega
      | some nxt =>
        simp only [hg]
        split_ifs <;> rfl
    · rfl
    · exact ih

/-- The nationality-adjacent address loop never hits its index-error
branch. -/
theorem goAddrLines_isSome (nat_low : String) (lines : List String)
    (l : List (Nat × String)) : (goAddrLines nat_low lines l).isSome := by
  induction l with
  | nil => rfl
  | cons p rest ih =>
    obtain ⟨idx, line⟩ := p
    simp only [goAddrLines]
    split_ifs with h1 h2
    · cases hg : lines.get? (idx + 1) with
      | none =>
        rw [List.get?_eq_none] at hg
        omega
      | some cand =>
        simp only [hg]
        split_ifs
        · rfl
        · exact ih
    · exact ih
    · exact ih

/-- Section 3 never raises. -/
theorem fallbackNameSection_isSome (lines : List String) (d : FieldMap) :
    (fallbackNameSection lines d).isSome := by
  unfold fallbackNameSection
  split_ifs with h1
  · rfl
  · obtain ⟨x, hx⟩ := Option.isSome_iff_exists.mp (goNameLines_isSome lines lines.enum)
    rw [hx]
    cases x with
    | none => rfl
    | some cand => rfl

/-- The guarded `all_dates[-1]` access never raises. -/
theorem datesStep1_isSome (all_dates : List (List Char)) (d : FieldMap) :
    (datesStep1 all_dates d).isSome := by
  unfold datesStep1
  split_ifs with h
  · cases hg : all_dates.getLast? with
    | none =>
      exfalso
      have hne : all_dates ≠ [] := by
        simp only [Bool.and_eq_true, Bool.not_eq_true'] at h
        simp [← List.isEmpty_iff, h.2]
      have := List.getLast?_isSome.mpr hne
      rw [hg] at this
      exact Bool.noConfusion this
    | some last => rfl
  · rfl

/-- The guarded `all_dates[1]` access never raises. -/
theorem datesStep2_isSome (issuing : Option (List Char)) (all_dates : List (List Char))
    (d : FieldMap) : (datesStep2 issuing all_dates d).isSome := by
  unfold datesStep2
  split_ifs with h1 h2
  · cases hg : all_dates.get? 1 with
    | none =>
      rw [List.get?_eq_none] at hg
      omega
    | some snd => rfl
  · rfl
  · rfl

/-- Composing two never-failing steps with `Option.bind` never fails. -/
theorem bindIsSome {α β : Type} {o : Option α} {f : α → Option β}
    (ho : o.isSome) (hf : ∀ x, (f x).isSome) : (o.bind f).isSome := by
  cases o with
  | none => exact absurd ho (by simp)
  | some x => exact hf x

/-- Section 4 never raises. -/
theorem datesSection_isSome (raw : List Char) (d : FieldMap) :
    (datesSection raw d).isSome := by
  unfold datesSection
  exact bindIsSome (datesStep1_isSome _ _) (fun x => datesStep2_isSome _ _ x)

/-- Section 7 never raises. -/
theorem addrSection_isSome (raw : List Char) (lines : List String) (d : FieldMap) :
    (addrSection raw lines d).isSome := by
  unfold addrSection
  cases hL : labelSearch addrLabels (strCap notNLR 2 140) raw with
  | some v => rfl
  | none =>
    simp only
    rw [Option.isSome_map']
    split_ifs with h1
    · refine bindIsSome (lookupF_isSome_of_hasKeyF h1) (fun natv => ?_)
      rw [Option.isSome_map']
      exact goAddrLines_isSome (pyLower natv) lines lines.enum
    · rfl

/-- C9: on every input string — empty or arbitrarily malformed — the
front-side extractor and the back-side extractor terminate without an
uncaught exception and return a (possibly empty) field mapping; a
missing match only omits the key. -/
theorem extractors_never_throw (s : String) :
    (∃ front, parse_fields s = some front) ∧
    (∃ back, parse_back_side_fields s = back) := by
  refine ⟨?_, ⟨_, rfl⟩⟩
  rw [← Option.isSome_iff_exists]
  unfold parse_fields
  refine bindIsSome (fallbackNameSection_isSome _ _) (fun d1 => ?_)
  refine bindIsSome (datesSection_isSome _ _) (fun d2 => ?_)
  rw [Option.isSome_map']
  exact addrSection_isSome _ _ _

/-- A scan whose step always fails finds nothing. -/
theorem scanO_none {α : Type} (step : Nat → Option α) (hstep : ∀ i, step i = none) :
    ∀ s f, scanO step s f = none := by
  intro s f
  induction f generalizing s with
  | zero => rfl
  | succ f ih =>
    rw [scanO, hstep s]
    exact ih (s + 1)

/-- A nonempty case-insensitive literal whose head is not a space
cannot match at the head of whitespace-only text. -/
theorem matchCIPref_none_of_space {l : Char} {ls cs : List Char}
    (hc : ∀ c ∈ cs, c = ' ') (hl : pyLowerChar l ≠ ' ') :
    matchCIPref (l :: ls) cs = none := by
  cases cs with
  | nil => rfl
  | cons c rest =>
    have hcc : c = ' ' := hc c (List.mem_cons_self c rest)
    subst hcc
    rw [matchCIPref]
    have hbeq : (pyLowerChar ' ' == pyLowerChar l) = false := by
      have hsp : pyLowerChar ' ' = ' ' := rfl
      rw [hsp]
      exact beq_eq_false_iff_ne.mpr (fun he => hl he.symm)
    rw [hbeq]
    rfl

/-- A label alternation step fails on whitespace-only text. -/
theorem labelStep_none_of_space {α : Type} {labels : List String}
    {k : List Char → Option α} {full : List Char}
    (hfull : ∀ c ∈ full, c = ' ') (hgl : labels.all goodLbl = true) (i : Nat) :
    labelStep labels k full i = none := by
  unfold labelStep
  rw [List.findSome?_eq_none_iff]
  intro lbl hmem
  have hg : goodLbl lbl = true := List.all_eq_true.mp hgl lbl hmem
  unfold goodLbl at hg
  cases hd : lbl.data with
  | nil =>
    rw [hd] at hg
    exact Bool.noConfusion hg
  | cons c cs0 =>
    rw [hd] at hg
    have hne : pyLowerChar c ≠ ' ' := by
      simpa using hg
    rw [matchCIPref_none_of_space (fun c hc => hfull c (List.drop_subset i full hc)) hne]

/-- A label-value search fails on whitespace-only text. -/
theorem labelSearch_none_of_space {α : Type} {labels : List String}
    {k : List Char → Option α} {full : List Char}
    (hfull : ∀ c ∈ full, c = ' ') (hgl : labels.all goodLbl = true) :
    labelSearch labels k full = none :=
  scanO_none _ (labelStep_none_of_space hfull hgl) 0 (full.length + 1)

/-- An alternation capture of good literals fails on whitespace-only
text. -/
theorem altCapture_none_of_space {alts : List String} {cs : List Char}
    (hc : ∀ c ∈ cs, c = ' ') (hgl : alts.all goodLbl = true) :
    altCapture (alts.map String.data) cs = none := by
  unfold altCapture
  rw [List.findSome?_eq_none_iff]
  intro a hmem
  obtain ⟨lbl, hlbl, rfl⟩ := List.mem_map.mp hmem
  have hg : goodLbl lbl = true := List.all_eq_true.mp hgl lbl hlbl
  unfold goodLbl at hg
  cases hd : lbl.data with
  | nil =>
    rw [hd] at hg
    exact Bool.noConfusion hg
  | cons c cs0 =>
    rw [hd] at hg
    have hne : pyLowerChar c ≠ ' ' := by
      simpa using hg
    rw [matchCIPref_none_of_space hc hne]
    rfl

/-- The shape test fails on a whitespace-only candidate window. -/
theorem eidShapeL_false_of_space {t : List Char} (hc : ∀ c ∈ t, c = ' ') :
    eidShapeL t = false := by
  cases t with
  | nil => rfl
  | cons c0 t0 =>
    have hc0 : c0 = ' ' := hc c0 (List.mem_cons_self c0 t0)
    subst hc0
    have hall : ((List.range 18).all (fun k =>
        if k == 3 || k == 8 || k == 16 then (' ' :: t0).get? k == some '-'
        else
          match (' ' :: t0).get? k with
          | some c => c.isDigit
          | none => false)) = false := by
      cases hall2 : ((List.range 18).all (fun k =>
          if k == 3 || k == 8 || k == 16 then (' ' :: t0).get? k == some '-'
          else
            match (' ' :: t0).get? k with
            | some c => c.isDigit
            | none => false)) with
      | false => rfl
      | true =>
        exfalso
        have h0 := List.all_eq_true.mp hall2 0 (by decide)
        exact Bool.noConfusion h0
    unfold eidShapeL
    rw [hall]
    simp

/-- The Emirates-ID pattern never matches in whitespace-only text. -/
theorem eidHit_false_of_space {cs : List Char} (hc : ∀ c ∈ cs, c = ' ') (i : Nat) :
    eidHit cs i = false := by
  have hshape : eidShapeAt cs i = false := by
    unfold eidShapeAt
    exact eidShapeL_false_of_space
      (fun c hm => hc c (List.drop_subset i cs (List.take_subset 18 (cs.drop i) hm)))
  unfold eidHit
  rw [hshape]
  simp

/-- The Emirates-ID search fails on whitespace-only text. -/
theorem eidFind_none_of_space {cs : List Char} (hc : ∀ c ∈ cs, c = ' ') :
    eidFind cs = none := by
  unfold eidFind
  exact scanO_none _ (fun i => by rw [eidHit_false_of_space hc i]; rfl) 0 (cs.length + 1)

/-- The date pattern needs a digit at its head. -/
theorem dateMatchAt_none_of_space {cs : List Char} (hc : ∀ c ∈ cs, c = ' ') :
    dateMatchAt cs = none := by
  unfold dateMatchAt
  have : digitChunk12 cs = [] := by
    cases cs with
    | nil => rfl
    | cons a rest =>
      have ha : a = ' ' := hc a (List.mem_cons_self a rest)
      subst ha
      cases rest <;> rfl
  rw [this]
  rfl

/-- `re.findall` of the date pattern finds nothing in whitespace-only
text. -/
theorem dateFindallGo_nil_of_space :
    ∀ (fuel : Nat) (cs : List Char), (∀ c ∈ cs, c = ' ') → dateFindallGo fuel cs = [] := by
  intro fuel
  induction fuel with
  | zero => intro cs _; rfl
  | succ fuel ih =>
    intro cs hc
    cases cs with
    | nil => rfl
    | cons c rest =>
      rw [dateFindallGo, dateMatchAt_none_of_space hc]
      exact ih rest (fun x hx => hc x (List.mem_cons_of_mem c hx))

/-- `all_dates` is empty for whitespace-only text. -/
theorem dateFindall_nil_of_space {cs : List Char} (hc : ∀ c ∈ cs, c = ' ') :
    dateFindall cs = [] :=
  dateFindallGo_nil_of_space cs.length cs hc

/-- Labeled date search fails on whitespace-only text. -/
theorem findDateByLabels_none_of_space {labels : List String} {full : List Char}
    (hfull : ∀ c ∈ full, c = ' ') (hgl : labels.all goodLbl = true) :
    findDateByLabels labels full = none := by
  unfold findDateByLabels
  rw [List.findSome?_eq_none_iff]
  intro lbl hmem
  exact labelSearch_none_of_space hfull
    (by simp [List.all_eq_true.mp hgl lbl hmem])

/-- Every line split from whitespace-only text is whitespace-only. -/
theorem pySplitlinesGo_space :
    ∀ (cs acc : List Char), (∀ c ∈ acc, c = ' ') → (∀ c ∈ cs, c = ' ') →
      ∀ l ∈ pySplitlinesGo acc cs, ∀ c ∈ l.data, c = ' ' := by
  intro cs
  induction cs with
  | nil =>
    intro acc hacc _ l hl c hc
    rw [pySplitlinesGo] at hl
    split_ifs at hl with he
    · exact absurd hl (List.not_mem_nil l)
    · rw [List.mem_singleton] at hl
      subst hl
      exact hacc c (List.mem_reverse.mp hc)
  | cons c0 rest ih =>
    intro acc hacc hcs l hl c hc
    have hc0 : c0 = ' ' := hcs c0 (List.mem_cons_self c0 rest)
    subst hc0
    have hrest : ∀ c ∈ rest, c = ' ' := fun x hx => hcs x (List.mem_cons_of_mem _ hx)
    have hstep : pySplitlinesGo acc (' ' :: rest) = pySplitlinesGo (' ' :: acc) rest := rfl
    rw [hstep] at hl
    exact ih (' ' :: acc)
      (fun x hx => by
        rcases List.mem_cons.mp hx with h | h
        · exact h
        · exact hacc x h)
      hrest l hl c hc

/-- Stripping a whitespace-only string leaves the empty string. -/
theorem pyStripS_empty_of_space {s : String} (hs : ∀ c ∈ s.data, c = ' ') :
    pyStripS s = "" := by
  unfold pyStripS pyStripL
  have h1 : s.data.dropWhile isPySpace = [] :=
    List.dropWhile_eq_nil_iff.mpr (fun x hx => by rw [hs x hx]; rfl)
  rw [h1]
  rfl

/-- Whitespace-only text yields no nonempty stripped lines. -/
theorem linesOf_nil_of_space {s : String} (hs : ∀ c ∈ s.data, c = ' ') :
    linesOf s = [] := by
  unfold linesOf
  rw [List.filter_eq_nil_iff]
  intro l hl
  obtain ⟨l0, hl0, rfl⟩ := List.mem_map.mp hl
  have : pyStripS l0 = "" :=
    pyStripS_empty_of_space (pySplitlinesGo_space s.data [] (by simp) hs l0 hl0)
  simp [this]

/-- Section 1 finds nothing in whitespace-only text. -/
theorem eidSection_id_of_space {raw : List Char} (hc : ∀ c ∈ raw, c = ' ')
    (d : FieldMap) : eidSection raw d = d := by
  unfold eidSection
  rw [eidFind_none_of_space hc]

/-- Section 2 finds nothing in whitespace-only text. -/
theorem labeledNameSection_id_of_space {raw : List Char} (hc : ∀ c ∈ raw, c = ' ')
    (d : FieldMap) : labeledNameSection raw d = d := by
  unfold labeledNameSection
  rw [labelSearch_none_of_space hc (by decide)]

/-- Section 3 with no surviving lines changes nothing. -/
theorem fallbackNameSection_nil_lines (d : FieldMap) :
    fallbackNameSection [] d = some d := by
  unfold fallbackNameSection
  split_ifs <;> rfl

/-- Section 4 changes nothing on whitespace-only text. -/
theorem datesSection_id_of_space {raw : List Char} (hc : ∀ c ∈ raw, c = ' ')
    (d : FieldMap) : datesSection raw d = some d := by
  unfold datesSection datesLabeled
  rw [dateFindall_nil_of_space hc,
    findDateByLabels_none_of_space hc (by decide),
    findDateByLabels_none_of_space hc (by decide),
    findDateByLabels_none_of_space hc (by decide)]
  simp [insDate, datesStep1, datesStep2]

/-- Section 5 finds nothing in whitespace-only text. -/
theorem natSection_id_of_space {raw : List Char} (hc : ∀ c ∈ raw, c = ' ')
    (d : FieldMap) : natSection raw d = d := by
  unfold natSection
  rw [labelSearch_none_of_space hc (by decide)]

/-- Section 6 finds nothing in whitespace-only text. -/
theorem genderSection_id_of_space {raw : List Char} (hc : ∀ c ∈ raw, c = ' ')
    (d : FieldMap) : genderSection raw d = d := by
  unfold genderSection
  have h1 : genderP1 raw = none := by
    unfold genderP1
    exact labelSearch_none_of_space hc (by decide)
  have h2 : genderP2 raw = none := by
    unfold genderP2
    exact labelSearch_none_of_space hc (by decide)
  have h3 : genderP3 raw = none := by
    unfold genderP3
    refine scanO_none _ (fun i => ?_) 0 (raw.length + 1)
    rw [altCapture_none_of_space
      (fun c hm => hc c (List.drop_subset i raw hm)) (by decide)]
    rfl
  rw [h1, h2, h3]
  rfl

/-- Section 7 changes nothing on whitespace-only text with no lines
and no nationality key. -/
theorem addrSection_id_of_space {raw : List Char} (hc : ∀ c ∈ raw, c = ' ')
    {d : FieldMap} (hnat : hasKeyF "nationality" d = false) :
    addrSection raw [] d = some d := by
  unfold addrSection
  rw [labelSearch_none_of_space hc (by decide)]
  simp only [hnat, Bool.false_eq_true, if_neg (by simp : ¬(false = true))]
  unfold addrFallbackApply
  simp [addrFallbackRev]

/-- The front extractor returns the empty field map on
whitespace-only input. -/
theorem parse_fields_empty_of_space {s : String} (hs : ∀ c ∈ s.data, c = ' ') :
    parse_fields s = some [] := by
  unfold parse_fields
  have hnorm : ∀ c ∈ (normalizedOf s).data, c = ' ' := by
    intro c hcm
    obtain ⟨c0, hc0, rfl⟩ := List.mem_map.mp hcm
    rw [hs c0 hc0]
    rfl
  rw [linesOf_nil_of_space hnorm, eidSection_id_of_space hs,
    labeledNameSection_id_of_space hs, fallbackNameSection_nil_lines]
  simp only [Option.some_bind]
  rw [datesSection_id_of_space hs]
  simp only [Option.some_bind]
  rw [natSection_id_of_space hs, genderSection_id_of_space hs,
    addrSection_id_of_space hs (by rfl)]
  rfl

/-- Joining empty strings with spaces yields a whitespace-only string. -/
theorem joinSp_space :
    ∀ ts : List String, (∀ t ∈ ts, t = "") → ∀ c ∈ (joinSp ts).data, c = ' ' := by
  intro ts
  induction ts with
  | nil =>
    intro _ c hc
    exact absurd hc (List.not_mem_nil c)
  | cons t rest ih =>
    intro hts c hc
    have ht : t = "" := hts t (List.mem_cons_self t rest)
    cases rest with
    | nil =>
      rw [show joinSp [t] = t from rfl, ht] at hc
      exact absurd hc (List.not_mem_nil c)
    | cons t2 rest2 =>
      rw [show joinSp (t :: t2 :: rest2) = t ++ " " ++ joinSp (t2 :: rest2) from rfl,
        ht] at hc
      rw [String.data_append, String.data_append] at hc
      rcases List.mem_append.mp hc with h | h
      · rcases List.mem_append.mp h with h2 | h2
        · exact absurd h2 (List.not_mem_nil c)
        · rw [List.mem_singleton.mp h2]
      · exact ih (fun x hx => hts x (List.mem_cons_of_mem t hx)) c h

/-- A batch of empty-text files all groups to the front side
(`detect_document_side "" = "unknown"`). -/
theorem frontTexts_all_empty :
    ∀ files : List (String × String), (∀ f ∈ files, f.2 = "") →
      frontTexts (files.map (fun nt => processFile nt.1 nt.2)) =
        List.replicate files.length "" := by
  intro files
  induction files with
  | nil => intro _; rfl
  | cons f rest ih =>
    intro hempty
    obtain ⟨nm, tx⟩ := f
    have htx : tx = "" := hempty (nm, tx) (List.mem_cons_self _ rest)
    subst htx
    have hside : (processFile nm "").side = "unknown" := rfl
    show frontTexts (processFile nm "" :: rest.map (fun nt => processFile nt.1 nt.2)) =
      List.replicate (rest.length + 1) ""
    unfold frontTexts at ih ⊢
    rw [List.filter_cons_of_pos (by rw [hside]; rfl), List.map_cons, List.replicate_succ]
    rw [ih (fun x hx => hempty x (List.mem_cons_of_mem _ hx))]
    rfl

/-- A batch of empty-text files yields no back-side texts. -/
theorem backTexts_all_empty :
    ∀ files : List (String × String), (∀ f ∈ files, f.2 = "") →
      backTexts (files.map (fun nt => processFile nt.1 nt.2)) = [] := by
  intro files
  induction files with
  | nil => intro _; rfl
  | cons f rest ih =>
    intro hempty
    obtain ⟨nm, tx⟩ := f
    have htx : tx = "" := hempty (nm, tx) (List.mem_cons_self _ rest)
    subst htx
    show backTexts (processFile nm "" :: rest.map (fun nt => processFile nt.1 nt.2)) = []
    unfold backTexts at ih ⊢
    rw [List.filter_cons_of_neg (by rw [show (processFile nm "").side = "unknown" from rfl]; decide)]
    exact ih (fun x hx => hempty x (List.mem_cons_of_mem _ hx))

/-- With an empty back blob the fallback keeps the front blob and an
empty back blob (the source's no-op branch). -/
theorem borrowTexts_empty_back (x : String) : borrowTexts x "" = (x, "") := by
  unfold borrowTexts
  split_ifs with h1 h2
  · exfalso
    simp at h1
  · rfl
  · rfl

/-- C4 (amended): an upload batch in which every OCR call returns
empty text, for a session with no prior record, reports as missing
every expected front field and the three expected back fields
`occupation`, `employer`, `issuing_place` (`family_sponsor` is not in
the expected list). -/
theorem all_empty_ocr_yields_all_missing_fields
    (files : List (String × String)) (hne : files ≠ [])
    (hempty : ∀ f ∈ files, f.2 = "") :
    (emirates_id_upload_core none files).map (fun r => r.missing_fields) =
      some ["emirates_id", "name", "dob", "nationality", "gender",
            "address", "issuing_date", "expiry_date",
            "occupation", "employer", "issuing_place"] := by
  unfold emirates_id_upload_core
  rw [frontTexts_all_empty files hempty, backTexts_all_empty files hempty]
  have hrep : (List.replicate files.length "").isEmpty = false := by
    cases files with
    | nil => exact absurd rfl hne
    | cons f rest => rfl
  have hfront : combineTexts (List.replicate files.length "") =
      joinSp (List.replicate files.length "") := by
    unfold combineTexts
    rw [hrep]
    rfl
  rw [hfront, show combineTexts [] = "" from rfl, borrowTexts_empty_back]
  have hsp : ∀ c ∈ (joinSp (List.replicate files.length "")).data, c = ' ' :=
    joinSp_space _ (fun t ht => List.eq_of_mem_replicate ht)
  show Option.map (fun r => r.missing_fields)
      (uploadFromTexts none (joinSp (List.replicate files.length "")) "") =
    some ["emirates_id", "name", "dob", "nationality", "gender",
          "address", "issuing_date", "expiry_date",
          "occupation", "employer", "issuing_place"]
  unfold uploadFromTexts
  rw [parse_fields_empty_of_space hsp]
  rfl

/-- Witness for C4 (amended): a two-file batch of empty OCR texts. -/
theorem all_empty_ocr_yields_all_missing_fields_witness :
    [("scan1.jpg", ""), ("scan2.jpg", "")] ≠ ([] : List (String × String)) ∧
    (emirates_id_upload_core none [("scan1.jpg", ""), ("scan2.jpg", "")]).map
        (fun r => r.missing_fields) =
      some ["emirates_id", "name", "dob", "nationality", "gender",
            "address", "issuing_date", "expiry_date",
            "occupation", "employer", "issuing_place"] :=
  ⟨by decide,
   all_empty_ocr_yields_all_missing_fields [("scan1.jpg", ""), ("scan2.jpg", "")]
     (by decide) (by decide)⟩

/-- C4 counterexample to the claim as stated: on an all-empty batch
the `missing_fields` list does not contain `family_sponsor`, although
the claim requires all four back fields of the spec (including
`family_sponsor`) to be reported missing. -/
theorem missing_fields_lack_family_sponsor :
    (emirates_id_upload_core none [("scan1.jpg", "")]).map (fun r => r.missing_fields) =
      some ["emirates_id", "name", "dob", "nationality", "gender",
            "address", "issuing_date", "expiry_date",
            "occupation", "employer", "issuing_place"] ∧
    "family_sponsor" ∉
      ["emirates_id", "name", "dob", "nationality", "gender",
       "address", "issuing_date", "expiry_date",
       "occupation", "employer", "issuing_place"] := by
  constructor
  · decide
  · decide

/-- A successful scan returns the leftmost position where the step
succeeds. -/
theorem scanO_found {α : Type} (step : Nat → Option α) :
    ∀ (f s : Nat) (r : α), scanO step s f = some r →
      ∃ j, s ≤ j ∧ step j = some r ∧ ∀ k, s ≤ k → k < j → step k = none := by
  intro f
  induction f with
  | zero =>
    intro s r h
    exact Option.noConfusion h
  | succ f ih =>
    intro s r h
    rw [scanO] at h
    cases hs : step s with
    | some r0 =>
      rw [hs] at h
      have h2 : some r0 = some r := h
      refine ⟨s, le_refl s, by rw [hs, h2], fun k hk1 hk2 => absurd hk2 (by omega)⟩
    | none =>
      rw [hs] at h
      obtain ⟨j, hj1, hj2, hj3⟩ := ih (s + 1) r h
      refine ⟨j, by omega, hj2, fun k hk1 hk2 => ?_⟩
      rcases Nat.eq_or_lt_of_le hk1 with he | hlt
      · rw [← he]
        exact hs
      · exact hj3 k hlt hk2

/-- The scan succeeds when the step succeeds at some covered position. -/
theorem scanO_isSome_of {α : Type} (step : Nat → Option α) :
    ∀ (f s i : Nat) (r : α), s ≤ i → i < s + f → step i = some r →
      (scanO step s f).isSome := by
  intro f
  induction f with
  | zero =>
    intro s i r h1 h2 _
    omega
  | succ f ih =>
    intro s i r h1 h2 hstep
    rw [scanO]
    cases hs : step s with
    | some r0 => rfl
    | none =>
      have hne : s ≠ i := by
        intro he
        rw [he, hstep] at hs
        exact Option.noConfusion hs
      exact ih (s + 1) i r (by omega) (by omega) hstep

/-- Looking up a different key skips over a dict insertion. -/
theorem lookupF_dinsert_ne {k k0 : String} (h : k ≠ k0) (m : FieldMap) (v : String) :
    lookupF k (dinsert m k0 v) = lookupF k m := by
  have hbeq : (k0 == k) = false := beq_eq_false_iff_ne.mpr (fun he => h he.symm)
  unfold dinsert
  split_ifs with hk
  · clear hk
    induction m with
    | nil => rfl
    | cons kv t ih =>
      rw [List.map_cons]
      unfold lookupF at ih ⊢
      by_cases hkv : (kv.1 == k0) = true
      · rw [if_pos hkv]
        have hkvk : (kv.1 == k) = false := by
          rw [beq_iff_eq] at hkv
          rw [hkv]
          exact hbeq
        rw [@List.find?_cons_of_neg _ (fun kv => kv.1 == k) (k0, v) _ (by simp [hbeq]),
          @List.find?_cons_of_neg _ (fun kv => kv.1 == k) kv _ (by simp [hkvk])]
        exact ih
      · rw [if_neg hkv]
        by_cases hkvk : (kv.1 == k) = true
        · rw [@List.find?_cons_of_pos _ (fun kv => kv.1 == k) kv _ hkvk,
            @List.find?_cons_of_pos _ (fun kv => kv.1 == k) kv _ hkvk]
        · rw [@List.find?_cons_of_neg _ (fun kv => kv.1 == k) kv _ (by simp [hkvk]),
            @List.find?_cons_of_neg _ (fun kv => kv.1 == k) kv _ (by simp [hkvk])]
          exact ih
  · clear hk
    induction m with
    | nil =>
      unfold lookupF
      rw [List.nil_append,
        @List.find?_cons_of_neg _ (fun kv => kv.1 == k) (k0, v) _ (by simp [hbeq])]
    | cons kv t ih =>
      rw [List.cons_append]
      unfold lookupF at ih ⊢
      by_cases hkv : (kv.1 == k) = true
      · rw [@List.find?_cons_of_pos _ (fun kv => kv.1 == k) kv _ hkv,
          @List.find?_cons_of_pos _ (fun kv => kv.1 == k) kv _ hkv]
      · rw [@List.find?_cons_of_neg _ (fun kv => kv.1 == k) kv _ (by simp [hkv]),
          @List.find?_cons_of_neg _ (fun kv => kv.1 == k) kv _ (by simp [hkv])]
        exact ih

/-- Looking up after the final strip maps the stored value. -/
theorem lookupF_stripAll (k : String) (d : FieldMap) :
    lookupF k (stripAll d) = (lookupF k d).map stripVal := by
  induction d with
  | nil => rfl
  | cons kv t ih =>
    unfold stripAll at ih ⊢
    unfold lookupF at ih ⊢
    rw [List.map_cons, List.find?, List.find?]
    cases hkv : (kv.1 == k) with
    | true => rfl
    | false => exact ih

/-- Section 2 does not touch the `emirates_id` entry. -/
theorem labeledNameSection_eid (raw : List Char) (d : FieldMap) :
    lookupF "emirates_id" (labeledNameSection raw d) = lookupF "emirates_id" d := by
  unfold labeledNameSection
  cases labelSearch nameLabels (strCap notNLR 2 80) raw with
  | none => rfl
  | some v => exact lookupF_dinsert_ne (by decide) d _

/-- Section 3 does not touch the `emirates_id` entry. -/
theorem fallbackNameSection_eid {lines : List String} {d d' : FieldMap}
    (h : fallbackNameSection lines d = some d') :
    lookupF "emirates_id" d' = lookupF "emirates_id" d := by
  unfold fallbackNameSection at h
  split_ifs at h with h1
  · injection h with h
    rw [← h]
  · cases hg : goNameLines lines lines.enum with
    | none =>
      rw [hg] at h
      exact Option.noConfusion h
    | some res =>
      rw [hg] at h
      cases res with
      | none =>
        injection h with h
        rw [← h]
      | some cand =>
        simp only at h
        split_ifs at h with h2
        · injection h with h
          rw [← h]
          exact lookupF_dinsert_ne (by decide) d _
        · injection h with h
          rw [← h]

/-- The expiry positional step does not touch the `emirates_id` entry. -/
theorem datesStep1_eid {ad : List (List Char)} {d d' : FieldMap}
    (h : datesStep1 ad d = some d') :
    lookupF "emirates_id" d' = lookupF "emirates_id" d := by
  unfold datesStep1 at h
  split_ifs at h with h1
  · cases hg : ad.getLast? with
    | none =>
      rw [hg] at h
      exact Option.noConfusion h
    | some last =>
      rw [hg] at h
      injection h with h
      rw [← h]
      exact lookupF_dinsert_ne (by decide) d _
  · injection h with h
    rw [← h]

/-- The issuing positional step does not touch the `emirates_id` entry. -/
theorem datesStep2_eid {issuing : Option (List Char)} {ad : List (List Char)} {d d' : FieldMap}
    (h : datesStep2 issuing ad d = some d') :
    lookupF "emirates_id" d' = lookupF "emirates_id" d := by
  unfold datesStep2 at h
  split_ifs at h with h1 h2
  · cases hg : ad.get? 1 with
    | none =>
      rw [hg] at h
      exact Option.noConfusion h
    | some snd =>
      rw [hg] at h
      injection h with h
      rw [← h]
      exact lookupF_dinsert_ne (by decide) d _
  · injection h with h
    rw [← h]
  · injection h with h
    rw [← h]

/-- A labeled-date insertion does not touch the `emirates_id` entry
when its key differs. -/
theorem insDate_eid {key : String} (hne : ("emirates_id" : String) ≠ key)
    (res : Option (List Char)) (d : FieldMap) :
    lookupF "emirates_id" (insDate key res d) = lookupF "emirates_id" d := by
  unfold insDate
  cases res with
  | none => rfl
  | some v => exact lookupF_dinsert_ne hne d _

/-- Section 4 does not touch the `emirates_id` entry. -/
theorem datesSection_eid {raw : List Char} {d d' : FieldMap}
    (h : datesSection raw d = some d') :
    lookupF "emirates_id" d' = lookupF "emirates_id" d := by
  unfold datesSection at h
  cases h1 : datesStep1 (dateFindall raw) (datesLabeled raw d) with
  | none =>
    rw [h1] at h
    exact Option.noConfusion h
  | some dmid =>
    rw [h1, Option.some_bind] at h
    rw [datesStep2_eid h, datesStep1_eid h1]
    unfold datesLabeled
    rw [insDate_eid (by decide), insDate_eid (by decide), insDate_eid (by decide)]

/-- Section 5 does not touch the `emirates_id` entry. -/
theorem natSection_eid (raw : List Char) (d : FieldMap) :
    lookupF "emirates_id" (natSection raw d) = lookupF "emirates_id" d := by
  unfold natSection
  cases labelSearch natLabels (strCap notNLR 2 80) raw with
  | none => rfl
  | some v => exact lookupF_dinsert_ne (by decide) d _

/-- Section 6 does not touch the `emirates_id` entry. -/
theorem genderSection_eid (raw : List Char) (d : FieldMap) :
    lookupF "emirates_id" (genderSection raw d) = lookupF "emirates_id" d := by
  unfold genderSection
  cases genderLoop [genderP1 raw, genderP2 raw, genderP3 raw] with
  | none => rfl
  | some gv =>
    simp only
    split_ifs <;>
      rw [lookupF_dinsert_ne (by decide), lookupF_dinsert_ne (by decide)]

/-- Section 7 does not touch the `emirates_id` entry. -/
theorem addrSection_eid {raw : List Char} {lines : List String} {d d' : FieldMap}
    (h : addrSection raw lines d = some d') :
    lookupF "emirates_id" d' = lookupF "emirates_id" d := by
  unfold addrSection at h
  have hfb : ∀ x : FieldMap, lookupF "emirates_id" (addrFallbackApply lines x) =
      lookupF "emirates_id" x := by
    intro x
    unfold addrFallbackApply
    split_ifs with h1
    · cases addrFallbackRev lines.reverse with
      | none => rfl
      | some l => exact lookupF_dinsert_ne (by decide) x _
    · rfl
  cases hL : labelSearch addrLabels (strCap notNLR 2 140) raw with
  | some v =>
    rw [hL] at h
    injection h with h
    rw [← h]
    exact lookupF_dinsert_ne (by decide) d _
  | none =>
    rw [hL] at h
    simp only at h
    split_ifs at h with h1
    · cases hn : lookupF "nationality" d with
      | none =>
        rw [hn] at h
        exact Option.noConfusion h
      | some natv =>
        rw [hn] at h
        rw [Option.some_bind] at h
        cases hg : goAddrLines (pyLower natv) lines lines.enum with
        | none =>
          rw [hg] at h
          exact Option.noConfusion h
        | some res =>
          rw [hg] at h
          simp only [Option.map_some'] at h
          injection h with h
          rw [← h, hfb]
          cases res with
          | none => rfl
          | some cand => exact lookupF_dinsert_ne (by decide) d _
    · simp only [Option.map_some'] at h
      injection h with h
      rw [← h, hfb]

/-- A digit is not regex whitespace. -/
theorem isDigit_not_pySpace {c : Char} (h : c.isDigit = true) : isPySpace c = false := by
  cases hsp : isPySpace c with
  | false => rfl
  | true =>
    exfalso
    simp only [isPySpace, Bool.or_eq_true, beq_iff_eq] at hsp
    rcases hsp with ((((rfl | rfl) | rfl) | rfl) | rfl) | rfl <;> exact Bool.noConfusion h

/-- A digit is not a colon. -/
theorem isDigit_ne_colon {c : Char} (h : c.isDigit = true) : (c == ':') = false := by
  cases hco : (c == ':') with
  | false => rfl
  | true =>
    exfalso
    rw [beq_iff_eq] at hco
    subst hco
    exact Bool.noConfusion h

/-- `dropWhile` is the identity when no element satisfies the
predicate. -/
theorem dropWhile_eq_self_of_false {p : Char → Bool} {l : List Char}
    (h : ∀ c ∈ l, p c = false) : l.dropWhile p = l := by
  cases l with
  | nil => rfl
  | cons a t =>
    rw [List.dropWhile_cons, h a (List.mem_cons_self a t)]
    simp

/-- A matched Emirates-ID token consists of hyphens (offsets 3, 8, 16)
and digits, and has length 18. -/
theorem eidShapeL_facts {t : List Char} (h : eidShapeL t = true) :
    t.length = 18 ∧ ∀ c ∈ t, c = '-' ∨ c.isDigit = true := by
  unfold eidShapeL at h
  rw [Bool.and_eq_true] at h
  obtain ⟨hlen, hall⟩ := h
  have hlen18 : t.length = 18 := by
    simpa using hlen
  refine ⟨hlen18, fun c hc => ?_⟩
  obtain ⟨n, hn⟩ := List.mem_iff_get?.mp hc
  have hnlt : n < 18 := by
    rcases List.get?_eq_some.mp hn with ⟨hlt, _⟩
    omega
  have hf := List.all_eq_true.mp hall n (List.mem_range.mpr hnlt)
  by_cases h3 : (n == 3 || n == 8 || n == 16) = true
  · rw [if_pos h3, hn] at hf
    left
    have : some c = some '-' := by
      exact beq_iff_eq.mp hf
    injection this
  · rw [if_neg h3, hn] at hf
    right
    exact hf

/-- Stripping whitespace and trailing colons leaves a matched
Emirates-ID token unchanged. -/
theorem stripVal_eid_token {t : List Char}
    (hch : ∀ c ∈ t, c = '-' ∨ c.isDigit = true) :
    pyStripS (String.mk t) = String.mk t ∧ stripVal (String.mk t) = String.mk t := by
  have hnsp : ∀ c ∈ t, isPySpace c = false := by
    intro c hc
    rcases hch c hc with rfl | hd
    · rfl
    · exact isDigit_not_pySpace hd
  have hncol : ∀ c ∈ t, (c == ':') = false := by
    intro c hc
    rcases hch c hc with rfl | hd
    · rfl
    · exact isDigit_ne_colon hd
  have hstripL : pyStripL t = t := by
    unfold pyStripL
    rw [dropWhile_eq_self_of_false hnsp,
      dropWhile_eq_self_of_false (fun c hc => hnsp c (List.mem_reverse.mp hc)),
      List.reverse_reverse]
  have hstrip : pyStripS (String.mk t) = String.mk t := by
    unfold pyStripS
    rw [show (String.mk t).data = t from rfl, hstripL]
  refine ⟨hstrip, ?_⟩
  unfold stripVal
  rw [hstrip]
  have hrs : pyRstripBy (fun c => c == ':') (String.mk t).data = t := by
    unfold pyRstripBy
    rw [show (String.mk t).data = t from rfl,
      dropWhile_eq_self_of_false (fun c hc => hncol c (List.mem_reverse.mp hc)),
      List.reverse_reverse]
  rw [hrs, hstrip]

/-- C6: whenever the text contains a standalone `DDD-DDDD-DDDDDDD-D`
token (word boundaries on both sides, as matched by the source's
`\b\d{3}-\d{4}-\d{7}-\d\b`), the front extractor returns the leftmost
such token, exactly as it appears in the text, under `emirates_id`. -/
theorem emirates_id_first_token (s : String) (i : Nat) (h : eidHit s.data i = true) :
    ∃ j, j ≤ i ∧ eidHit s.data j = true ∧ (∀ k, k < j → eidHit s.data k = false) ∧
      ∃ m, parse_fields s = some m ∧
        lookupF "emirates_id" m = some (eidTokenStr s.data j) := by
  -- the shape bounds the match position
  have hsh : eidShapeAt s.data i = true := by
    have h' := h
    simp only [eidHit, Bool.and_eq_true] at h'
    tauto
  have hbound : i < s.data.length + 1 := by
    have hlen := (eidShapeL_facts hsh).1
    rw [List.length_take, List.length_drop, inf_eq_min] at hlen
    omega
  -- the scan finds the leftmost hit
  have hstepi : (fun p => if eidHit s.data p then some p else none) i = some i := by
    simp [h]
  have hfind : (eidFind s.data).isSome := by
    unfold eidFind
    exact scanO_isSome_of _ (s.data.length + 1) 0 i i (Nat.zero_le i) (by omega) hstepi
  obtain ⟨j0, hj0⟩ := Option.isSome_iff_exists.mp hfind
  obtain ⟨j, hj1, hj2, hj3⟩ := scanO_found _ _ _ _ hj0
  have hjhit : eidHit s.data j = true ∧ j = j0 := by
    by_cases hcase : eidHit s.data j = true
    · rw [if_pos hcase] at hj2
      exact ⟨hcase, by injection hj2⟩
    · rw [if_neg hcase] at hj2
      exact Option.noConfusion hj2
  have hmin : ∀ k, k < j → eidHit s.data k = false := by
    intro k hk
    have := hj3 k (Nat.zero_le k) hk
    by_cases hcase : eidHit s.data k = true
    · rw [if_pos hcase] at this
      exact Option.noConfusion this
    · exact Bool.eq_false_iff.mpr hcase
  have hji : j ≤ i := by
    by_contra hgt
    have := hmin i (by omega)
    rw [h] at this
    exact Bool.noConfusion this
  have hfindj : eidFind s.data = some j := by
    rw [hj0, hjhit.2]
  -- token shape facts at j
  have hshj : eidShapeAt s.data j = true := by
    have h' := hjhit.1
    simp only [eidHit, Bool.and_eq_true] at h'
    tauto
  have hfacts := eidShapeL_facts hshj
  have hinv := stripVal_eid_token hfacts.2
  -- section 1 stores the token
  have hsec1 : lookupF "emirates_id" (eidSection s.data []) =
      some (eidTokenStr s.data j) := by
    unfold eidSection
    rw [hfindj]
    show lookupF "emirates_id"
        (dinsert [] "emirates_id" (pyStripS (String.mk ((s.data.drop j).take 18)))) =
      some (eidTokenStr s.data j)
    unfold eidTokenStr
    rw [hinv.1]
    rfl
  -- the remaining sections leave the entry unchanged
  have hl2 : lookupF "emirates_id" (labeledNameSection s.data (eidSection s.data [])) =
      some (eidTokenStr s.data j) := by
    rw [labeledNameSection_eid, hsec1]
  obtain ⟨d3, hd3⟩ := Option.isSome_iff_exists.mp
    (fallbackNameSection_isSome (linesOf (normalizedOf s))
      (labeledNameSection s.data (eidSection s.data [])))
  have hl3 : lookupF "emirates_id" d3 = some (eidTokenStr s.data j) := by
    rw [fallbackNameSection_eid hd3, hl2]
  obtain ⟨d4, hd4⟩ := Option.isSome_iff_exists.mp (datesSection_isSome s.data d3)
  have hl4 : lookupF "emirates_id" d4 = some (eidTokenStr s.data j) := by
    rw [datesSection_eid hd4, hl3]
  obtain ⟨d6, hd6⟩ := Option.isSome_iff_exists.mp
    (addrSection_isSome s.data (linesOf (normalizedOf s))
      (genderSection s.data (natSection s.data d4)))
  have hl6 : lookupF "emirates_id" d6 = some (eidTokenStr s.data j) := by
    rw [addrSection_eid hd6, genderSection_eid, natSection_eid, hl4]
  refine ⟨j, hji, hjhit.1, hmin, stripAll d6, ?_, ?_⟩
  · unfold parse_fields
    rw [hd3, Option.some_bind, hd4, Option.some_bind, hd6]
    rfl
  · rw [lookupF_stripAll, hl6]
    unfold eidTokenStr at hinv ⊢
    rw [Option.map_some', hinv.2]

/-- Witness for C6: a text with one standalone token at position 3. -/
theorem emirates_id_first_token_witness :
    eidHit "ID 784-1970-1234567-1 x".data 3 = true ∧
    (∃ j, j ≤ 3 ∧ eidHit "ID 784-1970-1234567-1 x".data j = true ∧
      (∀ k, k < j → eidHit "ID 784-1970-1234567-1 x".data k = false) ∧
      ∃ m, parse_fields "ID 784-1970-1234567-1 x" = some m ∧
        lookupF "emirates_id" m = some (eidTokenStr "ID 784-1970-1234567-1 x".data 3)) := by
  refine ⟨by decide, ?_⟩
  obtain ⟨j, hj1, hj2, hj3, m, hm1, hm2⟩ :=
    emirates_id_first_token "ID 784-1970-1234567-1 x" 3 (by decide)
  have hj3eq : j = 3 := by
    interval_cases j
    · exact absurd hj2 (by decide)
    · exact absurd hj2 (by decide)
    · exact absurd hj2 (by decide)
    · rfl
  subst hj3eq
  exact ⟨3, hj1, hj2, hj3, m, hm1, hm2⟩
